import Mathlib

/-!
Verification of the vlocode datapack deployment engine against its
natural-language specification.

The definitions below are a shallow embedding of the TypeScript source:

* `src/packages/vlocity-deploy/src/datapackDeployer.ts` — the
  `DatapackDeployer` class (spec dispatch, filtering, error containment,
  trigger toggling, post-deploy field verification, deployment creation);
* `src/packages/salesforce/src/salesforceLookupService.ts` — the
  `SalesforceLookupService` class (`createWhereClause`, `lookupSingle`).

Parts of the engine that the repository snapshot does not include under
`src/` (the `DatapackDeployment` state machine, `RecordBatch`,
`DatapackDeploymentRecord` and `DatapackDeploymentRecordGroup` classes)
are modelled from the specification; each such definition carries a
doc comment starting with `Modelled from the spec:`.
-/

namespace Vlocode

/-- Modelled from the spec: per-record deployment status enum of
`DatapackDeploymentRecord` (datapackDeploymentRecord.ts is not in src).
Spec section 3: "status (enum: Pending, Ready, InProgress, Deployed,
Failed, Skipped)". -/
inductive DeploymentStatus
  | pending
  | ready
  | inProgress
  | deployed
  | failed
  | skipped
  deriving DecidableEq, Repr

/-- Modelled from the spec: `DatapackDeploymentRecord`
(datapackDeploymentRecord.ts is not in src). Spec section 3 lists the
attributes: `sourceKey`, `sobjectType`, `values` (field-name→value map),
`status`, `recordId`, `errors`/`warnings` (ordered lists of strings).
The deployer code in src additionally reads `datapackType` and
`normalizedSObjectType` from records. Field values are modelled as an
association list from field name to string value. -/
structure DatapackDeploymentRecord where
  sourceKey : String
  datapackType : String
  sobjectType : String
  normalizedSObjectType : String
  values : List (String × String)
  status : DeploymentStatus
  recordId : Option String
  warnings : List String
  errors : List String
  deriving DecidableEq, Repr

namespace DatapackDeploymentRecord

/-- Modelled from the spec: `DatapackDeploymentRecord.isDeployed`
(used by `verifyDeployedFieldData` in src); a record is deployed when
its status is Deployed. -/
def isDeployed (r : DatapackDeploymentRecord) : Bool :=
  r.status = DeploymentStatus.deployed

/-- Modelled from the spec: `DatapackDeploymentRecord.addWarning`
(called by `handleSpecFunctionError` in src); appends a warning message
to the record's ordered warning list. -/
def addWarning (msg : String) (r : DatapackDeploymentRecord) : DatapackDeploymentRecord :=
  { r with warnings := r.warnings ++ [msg] }

/-- Modelled from the spec: `DatapackDeploymentRecord.setFailed`
(called by `handleSpecFunctionError` in src); marks the record Failed
and appends the error message to its ordered error list. -/
def setFailed (msg : String) (r : DatapackDeploymentRecord) : DatapackDeploymentRecord :=
  { r with status := DeploymentStatus.failed, errors := r.errors ++ [msg] }

end DatapackDeploymentRecord

/-! ## C9 — `DatapackRecordDependency` variant structure

Shallow embedding of the TypeScript union type at
datapackDeployer.ts lines 23-34: a dependency carries
`VlocityRecordSObjectType` plus either
`VlocityDataPackType: 'VlocityMatchingKeyObject'` with
`VlocityMatchingRecordSourceKey: string` and
`VlocityLookupRecordSourceKey: undefined`, or
`VlocityDataPackType: 'VlocityLookupMatchingKeyObject'` with the
roles of the two key fields swapped. -/

/-- The discriminated part of the `DatapackRecordDependency` union:
the `VlocityMatchingKeyObject` variant carries a matching record source
key (and leaves the lookup key `undefined`); the
`VlocityLookupMatchingKeyObject` variant carries a lookup record source
key (and leaves the matching key `undefined`). -/
inductive DependencyVariant
  | matchingKeyObject (matchingRecordSourceKey : String)
  | lookupMatchingKeyObject (lookupRecordSourceKey : String)
  deriving DecidableEq, Repr

/-- `DatapackRecordDependency` (datapackDeployer.ts lines 23-34):
the common field `VlocityRecordSObjectType` together with the
discriminated variant part. -/
structure DatapackRecordDependency where
  VlocityRecordSObjectType : String
  variant : DependencyVariant
  deriving DecidableEq, Repr

namespace DatapackRecordDependency

/-- The `VlocityDataPackType` discriminant field of the union. -/
def VlocityDataPackType (d : DatapackRecordDependency) : String :=
  match d.variant with
  | DependencyVariant.matchingKeyObject _ => "VlocityMatchingKeyObject"
  | DependencyVariant.lookupMatchingKeyObject _ => "VlocityLookupMatchingKeyObject"

/-- The `VlocityMatchingRecordSourceKey` field: set on the matching-key
variant, `undefined` (`none`) on the lookup variant. -/
def VlocityMatchingRecordSourceKey (d : DatapackRecordDependency) : Option String :=
  match d.variant with
  | DependencyVariant.matchingKeyObject k => some k
  | DependencyVariant.lookupMatchingKeyObject _ => none

/-- The `VlocityLookupRecordSourceKey` field: `undefined` (`none`) on
the matching-key variant, set on the lookup variant. -/
def VlocityLookupRecordSourceKey (d : DatapackRecordDependency) : Option String :=
  match d.variant with
  | DependencyVariant.matchingKeyObject _ => none
  | DependencyVariant.lookupMatchingKeyObject k => some k

end DatapackRecordDependency

/-! ## C5 — record batch chunking

Modelled from the spec: `RecordBatch.execute` (recordBatch.ts is not in
src). Spec section 4.2: the executor "splits the group's records into
chunks bounded by the remote API's maximum batch size", "submits one
remote insert/update/delete call per chunk; the remote API returns one
result per submitted record in the same order as submitted — executor
must preserve this ordering when mapping results back to
DeploymentRecords"; section 8: "given N records and a chunk limit of K,
the executor issues ceil(N/K) calls, each bounded by K;
result-to-record mapping is positional and exact". -/

/-- Modelled from the spec: splitting a record list into consecutive
chunks of at most `k` elements each (spec section 4.2 / glossary
"Chunk: a bounded-size batch of records submitted in one remote API
call"). -/
def chunkList (k : Nat) : List α → List (List α)
  | [] => []
  | x :: xs => (x :: xs.take (k - 1)) :: chunkList k (xs.drop (k - 1))
termination_by l => l.length
decreasing_by
  simp only [List.length_cons]
  exact Nat.lt_succ_of_le (List.length_drop .. ▸ Nat.sub_le ..)

/-- One per-record result returned by the remote API for a submitted
record (spec section 6: `Result` with recordId / success / error). -/
structure BatchResult where
  recordId : Option String
  success : Bool
  error : Option String
  deriving DecidableEq, Repr

/-- Modelled from the spec: the batch executor. `remote` is the remote
API collaborator of spec section 6 (one call per chunk, one result per
submitted record, in submission order). The executor issues one remote
call per chunk and pairs each chunk's results positionally with the
records submitted in that call. -/
def executeBatch (k : Nat) (remote : List α → List BatchResult) (records : List α) :
    List (List (α × BatchResult)) :=
  (chunkList k records).map (fun c => c.zip (remote c))

/-- Every chunk produced by `chunkList` with a positive limit `k` has
at most `k` elements. -/
theorem chunkList_length_le (k : Nat) (hk : 0 < k) (l : List α) :
    ∀ c ∈ chunkList k l, c.length ≤ k := by
  induction l using chunkList.induct k with
  | case1 => intro c hc; simp [chunkList] at hc
  | case2 x xs ih =>
    intro c hc
    rw [chunkList, List.mem_cons] at hc
    rcases hc with hc | hc
    · subst hc
      simp only [List.length_cons, List.length_take]
      omega
    · exact ih c hc

/-- `chunkList` issues exactly `ceil(N/K)` chunks: its length is
`(N + K - 1) / K` for a positive chunk limit `K`. -/
theorem chunkList_count (k : Nat) (hk : 0 < k) (l : List α) :
    (chunkList k l).length = (l.length + k - 1) / k := by
  induction l using chunkList.induct k with
  | case1 =>
    simp only [chunkList, List.length_nil, Nat.zero_add]
    rw [Nat.div_eq_of_lt (by omega)]
  | case2 x xs ih =>
    rw [chunkList]
    simp only [List.length_cons, List.length_drop] at ih ⊢
    rcases Nat.lt_or_ge xs.length (k - 1) with hlt | hge
    · rw [List.drop_eq_nil_of_le (by omega)]
      simp only [chunkList, List.length_nil]
      have h1 : (xs.length + 1 + k - 1) / k = 1 :=
        Nat.div_eq_of_lt_le (by omega) (by omega)
      omega
    · have hxs : xs.length - (k - 1) + k - 1 = xs.length := by omega
      rw [ih, hxs]
      have : xs.length + 1 + k - 1 = xs.length + k := by omega
      rw [this, Nat.add_div_right _ hk]

/-- Concatenating the chunks produced by `chunkList` recovers the
original record list: every record is submitted exactly once, in
order. -/
theorem chunkList_join (k : Nat) (l : List α) :
    (chunkList k l).flatten = l := by
  induction l using chunkList.induct k with
  | case1 => simp [chunkList]
  | case2 x xs ih =>
    rw [chunkList]
    simp only [List.flatten_cons, ih, List.cons_append, List.take_append_drop]

/-- Positional pairing: when the second list is at least as long, the
entry of `zip` at index `i` pairs the two entries at index `i`. -/
theorem get?_zip_of_get? :
    ∀ (l₁ : List α) (l₂ : List β) (i : Nat) (a : α) (b : β),
      l₁.get? i = some a → l₂.get? i = some b →
      (l₁.zip l₂).get? i = some (a, b) := by
  intro l₁
  induction l₁ with
  | nil => intro l₂ i a b h; simp at h
  | cons x xs ih =>
    intro l₂ i a b h₁ h₂
    cases l₂ with
    | nil => simp at h₂
    | cons y ys =>
      cases i with
      | zero =>
        simp only [List.get?] at h₁ h₂
        rw [Option.some_inj] at h₁ h₂
        simp [List.zip_cons_cons, h₁, h₂]
      | succ n =>
        simp only [List.get?] at h₁ h₂
        simpa [List.zip_cons_cons] using ih ys n a b h₁ h₂

/-- Mapping the submitted record out of every (record, result) pair of
every call reproduces the original record list, when the remote
collaborator returns one result per submitted record. -/
theorem join_map_fst_zip (remote : List α → List BatchResult)
    (hremote : ∀ c, (remote c).length = c.length) :
    ∀ L : List (List α),
      ((L.map (fun c => c.zip (remote c))).flatten.map Prod.fst) = L.flatten := by
  intro L
  induction L with
  | nil => simp
  | cons c cs ih =>
    simp only [List.map_cons, List.flatten_cons, List.map_append, ih]
    rw [List.map_fst_zip _ _ (le_of_eq (hremote c).symm)]

/-- C5: for every group of N records and configured chunk limit K > 0,
the batch executor issues exactly ceil(N/K) = (N + K - 1) / K remote
calls; each call submits at most K records; concatenating the calls'
(record, result) pairs and projecting the records reproduces the input
records in order; and within each call the result at position i is
paired with the record submitted at position i (positional, exact
mapping). `remote` is the remote API collaborator returning one result
per submitted record in submission order. -/
theorem executeBatch_chunking (k : Nat) (hk : 0 < k)
    (remote : List α → List BatchResult)
    (hremote : ∀ c, (remote c).length = c.length) (records : List α) :
    (executeBatch k remote records).length = (records.length + k - 1) / k ∧
    (∀ call ∈ executeBatch k remote records, call.length ≤ k) ∧
    ((executeBatch k remote records).flatten.map Prod.fst = records) ∧
    (∀ chunk ∈ chunkList k records, ∀ i r res,
      chunk.get? i = some r → (remote chunk).get? i = some res →
      (chunk.zip (remote chunk)).get? i = some (r, res)) := by
  refine ⟨?_, ?_, ?_, ?_⟩
  · rw [executeBatch, List.length_map]
    exact chunkList_count k hk records
  · intro call hcall
    rw [executeBatch, List.mem_map] at hcall
    obtain ⟨chunk, hchunk, rfl⟩ := hcall
    rw [List.length_zip]
    exact le_trans (Nat.min_le_left _ _) (chunkList_length_le k hk records chunk hchunk)
  · rw [executeBatch, join_map_fst_zip remote hremote, chunkList_join]
  · intro chunk _ i r res h₁ h₂
    exact get?_zip_of_get? chunk (remote chunk) i r res h₁ h₂

/-- A concrete remote API stub returning one successful result per
submitted record, used to evaluate the chunking theorem on a concrete
input. -/
def okRemote (c : List Nat) : List BatchResult :=
  c.map fun _ => { recordId := some "001", success := true, error := none }

/-- Witness for C5: the chunking theorem evaluated at chunk limit 2 on
three records. -/
theorem executeBatch_chunking_witness :
    0 < 2 ∧ (∀ c, (okRemote c).length = c.length) ∧
    ((executeBatch 2 okRemote [1, 2, 3]).length = (([1, 2, 3] : List Nat).length + 2 - 1) / 2 ∧
     (∀ call ∈ executeBatch 2 okRemote [1, 2, 3], call.length ≤ 2) ∧
     ((executeBatch 2 okRemote [1, 2, 3]).flatten.map Prod.fst = [1, 2, 3]) ∧
     (∀ chunk ∈ chunkList 2 [1, 2, 3], ∀ i r res,
       chunk.get? i = some r → (okRemote chunk).get? i = some res →
       (chunk.zip (okRemote chunk)).get? i = some (r, res))) :=
  ⟨by decide, fun c => by simp [okRemote],
    executeBatch_chunking 2 (by decide) okRemote (fun c => by simp [okRemote]) [1, 2, 3]⟩

/-- C9: for every `DatapackRecordDependency` value, exactly one of the
matching-key field (`VlocityMatchingRecordSourceKey`) and the
lookup-key field (`VlocityLookupRecordSourceKey`) is set, discriminated
on `VlocityDataPackType`: the matching key is set exactly on the
`VlocityMatchingKeyObject` variant, the lookup key exactly on the
`VlocityLookupMatchingKeyObject` variant, and each value is one of the
two variants. -/
theorem dependency_exactly_one_key (d : DatapackRecordDependency) :
    (d.VlocityDataPackType = "VlocityMatchingKeyObject" ∨
      d.VlocityDataPackType = "VlocityLookupMatchingKeyObject") ∧
    (d.VlocityMatchingRecordSourceKey.isSome ↔
      d.VlocityDataPackType = "VlocityMatchingKeyObject") ∧
    (d.VlocityLookupRecordSourceKey.isSome ↔
      d.VlocityDataPackType = "VlocityLookupMatchingKeyObject") ∧
    (d.VlocityMatchingRecordSourceKey.isSome ↔
      ¬ d.VlocityLookupRecordSourceKey.isSome) := by
  obtain ⟨t, v⟩ := d
  cases v <;>
    simp [DatapackRecordDependency.VlocityDataPackType,
      DatapackRecordDependency.VlocityMatchingRecordSourceKey,
      DatapackRecordDependency.VlocityLookupRecordSourceKey]

/-! ## C7 — lookup query builder operator inference

Shallow embedding of `SalesforceLookupService.createWhereClause`
(salesforceLookupService.ts lines 122-172) and
`SalesforceLookupService.lookupSingle` (lines 22-24). The schema
service's field-path resolution (`describeSObjectFieldPath`) is
abstracted to a function from field path to the described field;
relationship-path traversal and nested object filters are orthogonal to
the operator inference and not modelled. The remote query service is
abstracted to a function from the built where-clause to the list of
matching records. -/

/-- A filter value passed to the lookup query builder: a string, an
array (of strings), or any other primitive (number, boolean, ...) for
which the builder applies no prefix convention. -/
inductive FilterValue
  | str (s : String)
  | arr (xs : List String)
  | other
  deriving DecidableEq, Repr

/-- The part of a described Salesforce field (`Field`) read by
`createWhereClause`: its API name and its field type. -/
structure SField where
  name : String
  ftype : String
  deriving DecidableEq, Repr

/-- Modelled from the spec: `isSalesforceId` from `@vlocode/util`
(string.ts is not in src; only its call site in
salesforceLookupService.ts line 160 is). A Salesforce record ID is a
15- or 18-character alphanumeric string. -/
def isSalesforceId (s : String) : Bool :=
  (s.length = 15 || s.length = 18) && s.toList.all Char.isAlphanum

/-- Character-list implementation of the JavaScript
`String.prototype.startsWith` test used by `createWhereClause`:
the string begins with the given leading characters. Implemented over
the character list so that concrete instances evaluate inside the
kernel. -/
def strHasLeading (leading s : String) : Bool :=
  s.toList.take leading.toList.length = leading.toList

/-- One comparison emitted into the where clause: the source appends
the string `fieldName operator fieldValue`; the embedding keeps the
three parts structured. -/
structure Comparison where
  fieldName : String
  operator : String
  value : FilterValue
  deriving DecidableEq, Repr

/-- The operator-inference branch of `createWhereClause`
(salesforceLookupService.ts lines 136-167) for one field/value entry:
string values are inspected for a leading `!=`, `>`, `<` or `~`
(stripped from the value); array values become `in` (`includes` for
multipicklist fields); anything else keeps `=`; then a string value
that is a Salesforce ID compared against a string-typed field is
expanded to the 18- and 15-character forms with operator `in`
(or `not in` when the inferred operator was not `=`). -/
def inferComparison (field : SField) (v : FilterValue) : Comparison :=
  let stripped : String × FilterValue :=
    match v with
    | FilterValue.str s =>
      if strHasLeading "!=" s then ("!=", FilterValue.str (s.drop 2))
      else if strHasLeading ">" s then (">", FilterValue.str (s.drop 1))
      else if strHasLeading "<" s then ("<", FilterValue.str (s.drop 1))
      else if strHasLeading "~" s then ("like", FilterValue.str (s.drop 1))
      else ("=", FilterValue.str s)
    | FilterValue.arr xs =>
      (if field.ftype = "multipicklist" then "includes" else "in", FilterValue.arr xs)
    | FilterValue.other => ("=", FilterValue.other)
  match stripped with
  | (op, FilterValue.str s) =>
    if isSalesforceId s && field.ftype == "string" then
      { fieldName := field.name,
        operator := if op = "=" then "in" else "not in",
        value := FilterValue.arr [s, s.take 15] }
    else
      { fieldName := field.name, operator := op, value := FilterValue.str s }
  | (op, v) => { fieldName := field.name, operator := op, value := v }

/-- `createWhereClause` (salesforceLookupService.ts lines 122-172):
builds one comparison per entry of the filter object, joined by ` and `
in the source; the embedding returns the ordered list of comparisons.
`schema` abstracts `describeSObjectFieldPath`. -/
def createWhereClause (schema : String → SField) (values : List (String × FilterValue)) :
    List Comparison :=
  values.map (fun pv => inferComparison (schema pv.1) pv.2)

/-- `lookupSingle` (salesforceLookupService.ts lines 22-24): performs
the lookup with the built filter, limit 1, and returns the first result
(`[0]`), which is `undefined`/`none` when no record matches. `query`
abstracts the remote query service evaluating a where clause. -/
def lookupSingle (query : List Comparison → List ρ) (schema : String → SField)
    (values : List (String × FilterValue)) : Option ρ :=
  (query (createWhereClause schema values)).head?

/-- Counterexample to C7 as stated: the string value
"001000000000001AAA" carries none of the `!=`, `>`, `<`, `~` prefixes
and is not an array, so per the claim it must yield an equals
comparison; the code instead detects a 18-character Salesforce ID
compared against a string-typed field and emits an `in` comparison over
the 18- and 15-character forms of the ID. -/
theorem createWhereClause_id_counterexample :
    (createWhereClause (fun _ => { name := "Name", ftype := "string" })
        [("Name", FilterValue.str "001000000000001AAA")]).map Comparison.operator
      = ["in"] ∧ ("in" : String) ≠ "=" := by
  constructor
  · decide
  · decide

/-- C7 (amended): for every filter entry, the comparison operator is
inferred from the value — leading `!=` yields not-equals with the
prefix stripped, leading `>` greater-than, leading `<` smaller-than,
leading `~` a like comparison, an array value an `in` comparison
(`includes` when the target field is a multipicklist), and any other
value equals — except that a (stripped) string value that is a 15- or
18-character Salesforce ID compared against a string-typed field is
expanded to `[id, first 15 of id]` with operator `in` (or `not in` when
the inferred operator was not `=`); and the single-record lookup
returns the first record produced by the query, or none when the query
matches no record. -/
theorem createWhereClause_operator_inference (schema : String → SField)
    (p : String) (s : String) (xs : List String) (query : List Comparison → List Nat)
    (vs : List (String × FilterValue)) :
    (strHasLeading "!=" s = true →
      (isSalesforceId (s.drop 2) && (schema p).ftype == "string") = false →
      createWhereClause schema [(p, FilterValue.str s)]
        = [{ fieldName := (schema p).name, operator := "!=", value := FilterValue.str (s.drop 2) }]) ∧
    (strHasLeading "!=" s = false → strHasLeading ">" s = true →
      (isSalesforceId (s.drop 1) && (schema p).ftype == "string") = false →
      createWhereClause schema [(p, FilterValue.str s)]
        = [{ fieldName := (schema p).name, operator := ">", value := FilterValue.str (s.drop 1) }]) ∧
    (strHasLeading "!=" s = false → strHasLeading ">" s = false → strHasLeading "<" s = true →
      (isSalesforceId (s.drop 1) && (schema p).ftype == "string") = false →
      createWhereClause schema [(p, FilterValue.str s)]
        = [{ fieldName := (schema p).name, operator := "<", value := FilterValue.str (s.drop 1) }]) ∧
    (strHasLeading "!=" s = false → strHasLeading ">" s = false → strHasLeading "<" s = false →
      strHasLeading "~" s = true →
      (isSalesforceId (s.drop 1) && (schema p).ftype == "string") = false →
      createWhereClause schema [(p, FilterValue.str s)]
        = [{ fieldName := (schema p).name, operator := "like", value := FilterValue.str (s.drop 1) }]) ∧
    ((schema p).ftype ≠ "multipicklist" →
      createWhereClause schema [(p, FilterValue.arr xs)]
        = [{ fieldName := (schema p).name, operator := "in", value := FilterValue.arr xs }]) ∧
    ((schema p).ftype = "multipicklist" →
      createWhereClause schema [(p, FilterValue.arr xs)]
        = [{ fieldName := (schema p).name, operator := "includes", value := FilterValue.arr xs }]) ∧
    (strHasLeading "!=" s = false → strHasLeading ">" s = false → strHasLeading "<" s = false →
      strHasLeading "~" s = false →
      (isSalesforceId s && (schema p).ftype == "string") = false →
      createWhereClause schema [(p, FilterValue.str s)]
        = [{ fieldName := (schema p).name, operator := "=", value := FilterValue.str s }]) ∧
    (createWhereClause schema [(p, FilterValue.other)]
        = [{ fieldName := (schema p).name, operator := "=", value := FilterValue.other }]) ∧
    (strHasLeading "!=" s = false → strHasLeading ">" s = false → strHasLeading "<" s = false →
      strHasLeading "~" s = false →
      (isSalesforceId s && (schema p).ftype == "string") = true →
      createWhereClause schema [(p, FilterValue.str s)]
        = [{ fieldName := (schema p).name, operator := "in",
             value := FilterValue.arr [s, s.take 15] }]) ∧
    (query (createWhereClause schema vs) = [] → lookupSingle query schema vs = none) ∧
    (∀ r rest, query (createWhereClause schema vs) = r :: rest →
      lookupSingle query schema vs = some r) ∧
    (strHasLeading "!=" s = true →
      (isSalesforceId (s.drop 2) && (schema p).ftype == "string") = true →
      createWhereClause schema [(p, FilterValue.str s)]
        = [{ fieldName := (schema p).name, operator := "not in",
             value := FilterValue.arr [s.drop 2, (s.drop 2).take 15] }]) ∧
    (strHasLeading "!=" s = false → strHasLeading ">" s = true →
      (isSalesforceId (s.drop 1) && (schema p).ftype == "string") = true →
      createWhereClause schema [(p, FilterValue.str s)]
        = [{ fieldName := (schema p).name, operator := "not in",
             value := FilterValue.arr [s.drop 1, (s.drop 1).take 15] }]) ∧
    (strHasLeading "!=" s = false → strHasLeading ">" s = false → strHasLeading "<" s = true →
      (isSalesforceId (s.drop 1) && (schema p).ftype == "string") = true →
      createWhereClause schema [(p, FilterValue.str s)]
        = [{ fieldName := (schema p).name, operator := "not in",
             value := FilterValue.arr [s.drop 1, (s.drop 1).take 15] }]) ∧
    (strHasLeading "!=" s = false → strHasLeading ">" s = false → strHasLeading "<" s = false →
      strHasLeading "~" s = true →
      (isSalesforceId (s.drop 1) && (schema p).ftype == "string") = true →
      createWhereClause schema [(p, FilterValue.str s)]
        = [{ fieldName := (schema p).name, operator := "not in",
             value := FilterValue.arr [s.drop 1, (s.drop 1).take 15] }]) := by
  refine ⟨?_, ?_, ?_, ?_, ?_, ?_, ?_, ?_, ?_, ?_, ?_, ?_, ?_, ?_, ?_⟩
  · intro h1 h2
    simp [createWhereClause, inferComparison, h1, h2]
    intro hid hty
    rw [hid, hty] at h2
    simp at h2
  · intro h1 h2 h3
    simp [createWhereClause, inferComparison, h1, h2, h3]
    intro hid hty
    rw [hid, hty] at h3
    simp at h3
  · intro h1 h2 h3 h4
    simp [createWhereClause, inferComparison, h1, h2, h3, h4]
    intro hid hty
    rw [hid, hty] at h4
    simp at h4
  · intro h1 h2 h3 h4 h5
    simp [createWhereClause, inferComparison, h1, h2, h3, h4, h5]
    intro hid hty
    rw [hid, hty] at h5
    simp at h5
  · intro h1
    simp [createWhereClause, inferComparison, h1]
  · intro h1
    simp [createWhereClause, inferComparison, h1]
  · intro h1 h2 h3 h4 h5
    simp [createWhereClause, inferComparison, h1, h2, h3, h4, h5]
    intro hid hty
    rw [hid, hty] at h5
    simp at h5
  · simp [createWhereClause, inferComparison]
  · intro h1 h2 h3 h4 h5
    simp only [Bool.and_eq_true, beq_iff_eq] at h5
    simp [createWhereClause, inferComparison, h1, h2, h3, h4, h5.1, h5.2]
  · intro h
    simp [lookupSingle, h]
  · intro r rest h
    simp [lookupSingle, h]
  · intro h1 h2
    simp only [Bool.and_eq_true, beq_iff_eq] at h2
    simp [createWhereClause, inferComparison, h1, h2.1, h2.2]
  · intro h1 h2 h3
    simp only [Bool.and_eq_true, beq_iff_eq] at h3
    simp [createWhereClause, inferComparison, h1, h2, h3.1, h3.2]
  · intro h1 h2 h3 h4
    simp only [Bool.and_eq_true, beq_iff_eq] at h4
    simp [createWhereClause, inferComparison, h1, h2, h3, h4.1, h4.2]
  · intro h1 h2 h3 h4 h5
    simp only [Bool.and_eq_true, beq_iff_eq] at h5
    simp [createWhereClause, inferComparison, h1, h2, h3, h4, h5.1, h5.2]

/-- Witness for C7 (amended): the operator-inference theorem evaluated
on concrete filter entries, one per inference rule, plus the
single-record lookup on an empty and a non-empty query result. -/
theorem createWhereClause_operator_inference_witness :
    (createWhereClause (fun _ => { name := "F", ftype := "double" })
        [("F", FilterValue.str "!=abc")]
      = [{ fieldName := "F", operator := "!=", value := FilterValue.str "abc" }]) ∧
    (createWhereClause (fun _ => { name := "F", ftype := "double" })
        [("F", FilterValue.str ">5")]
      = [{ fieldName := "F", operator := ">", value := FilterValue.str "5" }]) ∧
    (createWhereClause (fun _ => { name := "F", ftype := "double" })
        [("F", FilterValue.str "<5")]
      = [{ fieldName := "F", operator := "<", value := FilterValue.str "5" }]) ∧
    (createWhereClause (fun _ => { name := "F", ftype := "double" })
        [("F", FilterValue.str "~ab")]
      = [{ fieldName := "F", operator := "like", value := FilterValue.str "ab" }]) ∧
    (createWhereClause (fun _ => { name := "F", ftype := "double" })
        [("F", FilterValue.arr ["a", "b"])]
      = [{ fieldName := "F", operator := "in", value := FilterValue.arr ["a", "b"] }]) ∧
    (createWhereClause (fun _ => { name := "F", ftype := "multipicklist" })
        [("F", FilterValue.arr ["a"])]
      = [{ fieldName := "F", operator := "includes", value := FilterValue.arr ["a"] }]) ∧
    (createWhereClause (fun _ => { name := "F", ftype := "double" })
        [("F", FilterValue.str "abc")]
      = [{ fieldName := "F", operator := "=", value := FilterValue.str "abc" }]) ∧
    (createWhereClause (fun _ => { name := "F", ftype := "double" })
        [("F", FilterValue.other)]
      = [{ fieldName := "F", operator := "=", value := FilterValue.other }]) ∧
    (createWhereClause (fun _ => { name := "F", ftype := "string" })
        [("F", FilterValue.str "001000000000001AAA")]
      = [{ fieldName := "F", operator := "in",
           value := FilterValue.arr ["001000000000001AAA", "001000000000001"] }]) ∧
    (lookupSingle (fun _ => ([] : List Nat)) (fun _ => { name := "F", ftype := "double" }) []
      = none) ∧
    (lookupSingle (fun _ => ([7] : List Nat)) (fun _ => { name := "F", ftype := "double" }) []
      = some 7) ∧
    (createWhereClause (fun _ => { name := "F", ftype := "string" })
        [("F", FilterValue.str "!=001000000000001AAA")]
      = [{ fieldName := "F", operator := "not in",
           value := FilterValue.arr ["001000000000001AAA", "001000000000001"] }]) ∧
    (createWhereClause (fun _ => { name := "F", ftype := "string" })
        [("F", FilterValue.str ">001000000000001AAA")]
      = [{ fieldName := "F", operator := "not in",
           value := FilterValue.arr ["001000000000001AAA", "001000000000001"] }]) ∧
    (createWhereClause (fun _ => { name := "F", ftype := "string" })
        [("F", FilterValue.str "<001000000000001AAA")]
      = [{ fieldName := "F", operator := "not in",
           value := FilterValue.arr ["001000000000001AAA", "001000000000001"] }]) ∧
    (createWhereClause (fun _ => { name := "F", ftype := "string" })
        [("F", FilterValue.str "~001000000000001AAA")]
      = [{ fieldName := "F", operator := "not in",
           value := FilterValue.arr ["001000000000001AAA", "001000000000001"] }]) :=
  ⟨(createWhereClause_operator_inference (fun _ => { name := "F", ftype := "double" })
      "F" "!=abc" [] (fun _ => []) []).1 (by decide) (by decide),
   (createWhereClause_operator_inference (fun _ => { name := "F", ftype := "double" })
      "F" ">5" [] (fun _ => []) []).2.1 (by decide) (by decide) (by decide),
   (createWhereClause_operator_inference (fun _ => { name := "F", ftype := "double" })
      "F" "<5" [] (fun _ => []) []).2.2.1 (by decide) (by decide) (by decide) (by decide),
   (createWhereClause_operator_inference (fun _ => { name := "F", ftype := "double" })
      "F" "~ab" [] (fun _ => []) []).2.2.2.1
     (by decide) (by decide) (by decide) (by decide) (by decide),
   (createWhereClause_operator_inference (fun _ => { name := "F", ftype := "double" })
      "F" "x" ["a", "b"] (fun _ => []) []).2.2.2.2.1 (by decide),
   (createWhereClause_operator_inference (fun _ => { name := "F", ftype := "multipicklist" })
      "F" "x" ["a"] (fun _ => []) []).2.2.2.2.2.1 (by decide),
   (createWhereClause_operator_inference (fun _ => { name := "F", ftype := "double" })
      "F" "abc" [] (fun _ => []) []).2.2.2.2.2.2.1
     (by decide) (by decide) (by decide) (by decide) (by decide),
   (createWhereClause_operator_inference (fun _ => { name := "F", ftype := "double" })
      "F" "x" [] (fun _ => []) []).2.2.2.2.2.2.2.1,
   (createWhereClause_operator_inference (fun _ => { name := "F", ftype := "string" })
      "F" "001000000000001AAA" [] (fun _ => []) []).2.2.2.2.2.2.2.2.1
     (by decide) (by decide) (by decide) (by decide) (by decide),
   (createWhereClause_operator_inference (fun _ => { name := "F", ftype := "double" })
      "F" "x" [] (fun _ => ([] : List Nat)) []).2.2.2.2.2.2.2.2.2.1 rfl,
   (createWhereClause_operator_inference (fun _ => { name := "F", ftype := "double" })
      "F" "x" [] (fun _ => ([7] : List Nat)) []).2.2.2.2.2.2.2.2.2.2.1 7 [] rfl,
   (createWhereClause_operator_inference (fun _ => { name := "F", ftype := "string" })
      "F" "!=001000000000001AAA" [] (fun _ => []) []).2.2.2.2.2.2.2.2.2.2.2.1
     (by decide) (by decide),
   (createWhereClause_operator_inference (fun _ => { name := "F", ftype := "string" })
      "F" ">001000000000001AAA" [] (fun _ => []) []).2.2.2.2.2.2.2.2.2.2.2.2.1
     (by decide) (by decide) (by decide),
   (createWhereClause_operator_inference (fun _ => { name := "F", ftype := "string" })
      "F" "<001000000000001AAA" [] (fun _ => []) []).2.2.2.2.2.2.2.2.2.2.2.2.2.1
     (by decide) (by decide) (by decide) (by decide),
   (createWhereClause_operator_inference (fun _ => { name := "F", ftype := "string" })
      "F" "~001000000000001AAA" [] (fun _ => []) []).2.2.2.2.2.2.2.2.2.2.2.2.2.2
     (by decide) (by decide) (by decide) (by decide) (by decide)⟩

/-! ## C6 — conversion errors during deployment creation

Shallow embedding of the datapack-conversion loop of
`DatapackDeployer.createDeployment` (datapackDeployer.ts lines
163-179). The `DatapackRecordFactory.createRecords` collaborator is
abstracted: each input datapack carries the outcome of its conversion.
The source fans conversions out with a bounded concurrency of 8
(`forEachAsyncParallel`); the embedding processes the datapacks
sequentially in input order, fixing one linearization of that loop. -/

/-- A datapack to convert, paired with the outcome
(`DatapackRecordFactory.createRecords` either yields the records or
throws). -/
structure ConvertibleDatapack where
  headerFile : String
  conversion : Except String (List DatapackDeploymentRecord)

/-- The `CustomError` wrapper thrown by `createDeployment` on a
conversion error when `continueOnError` is not set: the formatted
message together with the original error it wraps. -/
structure ConversionError where
  message : String
  cause : String
  deriving DecidableEq, Repr

/-- The error message built at datapackDeployer.ts line 173. -/
def conversionErrorMessage (headerFile err : String) : String :=
  "Error while loading Datapack '" ++ headerFile ++ "' -- " ++ err

/-- The conversion loop of `createDeployment` (datapackDeployer.ts
lines 163-179): converts each datapack; on success its records are
added to the deployment; on error, when `continueOnError` is not set
the whole operation raises a `ConversionError` wrapping the conversion
error, otherwise the error message is logged and the loop continues.
Returns the added records and the logged error messages. -/
def createDeploymentRecords (continueOnError : Bool) :
    List ConvertibleDatapack → Except ConversionError (List DatapackDeploymentRecord × List String)
  | [] => Except.ok ([], [])
  | dp :: rest =>
    match dp.conversion with
    | Except.ok records =>
      (createDeploymentRecords continueOnError rest).map
        (fun acc => (records ++ acc.1, acc.2))
    | Except.error err =>
      let errorMessage := conversionErrorMessage dp.headerFile err
      if continueOnError then
        (createDeploymentRecords continueOnError rest).map
          (fun acc => (acc.1, errorMessage :: acc.2))
      else
        Except.error { message := errorMessage, cause := err }

/-- The records contributed by the datapacks that convert successfully,
in input order. -/
def successRecords (dps : List ConvertibleDatapack) : List DatapackDeploymentRecord :=
  (dps.filterMap (fun dp => dp.conversion.toOption)).flatten

/-- The logged error messages of the datapacks whose conversion fails,
in input order. -/
def failureLogs (dps : List ConvertibleDatapack) : List String :=
  dps.filterMap (fun dp =>
    match dp.conversion with
    | Except.error e => some (conversionErrorMessage dp.headerFile e)
    | Except.ok _ => none)

/-- C6: when `continueOnError` is true, a failing conversion is only
logged, the failing datapack contributes no records and the remaining
datapacks are still converted (the result is exactly the successful
datapacks' records plus one log line per failing datapack); when
`continueOnError` is false, the first failing conversion makes the
whole operation raise a `ConversionError` wrapping that conversion
error, and if no conversion fails the operation succeeds with all
records. -/
theorem createDeployment_conversion_errors (dps : List ConvertibleDatapack) :
    (createDeploymentRecords true dps = Except.ok (successRecords dps, failureLogs dps)) ∧
    (∀ pre dp post, dps = pre ++ dp :: post →
      (∀ p ∈ pre, ∃ rs, p.conversion = Except.ok rs) →
      ∀ e, dp.conversion = Except.error e →
      createDeploymentRecords false dps
        = Except.error { message := conversionErrorMessage dp.headerFile e, cause := e }) ∧
    ((∀ p ∈ dps, ∃ rs, p.conversion = Except.ok rs) →
      createDeploymentRecords false dps = Except.ok (successRecords dps, [])) := by
  refine ⟨?_, ?_, ?_⟩
  · induction dps with
    | nil => simp [createDeploymentRecords, successRecords, failureLogs]
    | cons dp rest ih =>
      cases hc : dp.conversion with
      | ok rs =>
        simp [createDeploymentRecords, hc, ih, successRecords, failureLogs,
          Except.map, List.filterMap_cons, Except.toOption]
      | error e =>
        simp [createDeploymentRecords, hc, ih, successRecords, failureLogs,
          Except.map, List.filterMap_cons, Except.toOption]
  · intro pre dp post hsplit hpre e herr
    subst hsplit
    induction pre with
    | nil =>
      simp [createDeploymentRecords, herr]
    | cons q qre ih =>
      obtain ⟨rs, hq⟩ := hpre q (List.mem_cons_self q qre)
      have := ih (fun p hp => hpre p (List.mem_cons_of_mem q hp))
      simp [createDeploymentRecords, hq, this, Except.map]
  · intro hok
    induction dps with
    | nil => simp [createDeploymentRecords, successRecords]
    | cons dp rest ih =>
      obtain ⟨rs, hdp⟩ := hok dp (List.mem_cons_self dp rest)
      have hrest := ih (fun p hp => hok p (List.mem_cons_of_mem dp hp))
      simp [createDeploymentRecords, hdp, hrest, Except.map, successRecords,
        List.filterMap_cons, Except.toOption]

/-- Witness for C6: the conversion-error theorem evaluated on one
successful and one failing datapack. -/
theorem createDeployment_conversion_errors_witness :
    (createDeploymentRecords true
        [{ headerFile := "a.json", conversion := Except.ok [] },
         { headerFile := "b.json", conversion := Except.error "bad" }]
      = Except.ok ([], [conversionErrorMessage "b.json" "bad"])) ∧
    (createDeploymentRecords false
        [{ headerFile := "a.json", conversion := Except.ok [] },
         { headerFile := "b.json", conversion := Except.error "bad" }]
      = Except.error { message := conversionErrorMessage "b.json" "bad", cause := "bad" }) := by
  have h := createDeployment_conversion_errors
    [{ headerFile := "a.json", conversion := Except.ok [] },
     { headerFile := "b.json", conversion := Except.error "bad" }]
  refine ⟨?_, ?_⟩
  · have h1 := h.1
    simp only [successRecords, failureLogs, List.filterMap_cons, Except.toOption] at h1
    simpa using h1
  · exact h.2.1 [{ headerFile := "a.json", conversion := Except.ok [] }]
      { headerFile := "b.json", conversion := Except.error "bad" } [] rfl
      (by intro p hp
          simp only [List.mem_singleton] at hp
          exact ⟨[], by rw [hp]⟩)
      "bad" rfl

/-! ## Spec registry dispatch (C2, C3)

Shallow embedding of `DatapackDeployer.runSpecFunction`,
`handleSpecFunctionError`, `getAffectedRecords`,
`filterApplicableRecords` and `evalFilter`
(datapackDeployer.ts lines 342-433). Records are shared, mutable
objects in the source; the embedding keeps one authoritative record
pool (the deployment's records) and lets event payloads reference
records by `sourceKey`, so a mutation through one reference is visible
through all. Hook bodies are abstract (spec section 1 puts the business
rules of individual specs out of scope): a hook is modelled by what the
dispatcher observes of it — whether invoking it on a payload throws,
and with which error message. -/

/-- A `RegExp | string` filter pattern (datapackDeployer.ts lines
128-130): a string is compared case-insensitively, a RegExp by its
`test` predicate. -/
inductive FilterPat
  | str (s : String)
  | regex (test : String → Bool)

/-- Lower-casing over the character list (JS `String.toLowerCase` as
used by `evalFilter`), implemented so concrete instances evaluate
inside the kernel. -/
def strLower (s : String) : String :=
  String.mk (s.toList.map Char.toLower)

/-- The `isMatch` helper of `evalFilter` (datapackDeployer.ts line
417): string patterns compare lower-cased for equality, RegExp patterns
test the candidate. -/
def isMatch (a : FilterPat) (b : String) : Bool :=
  match a with
  | FilterPat.str s => strLower s == strLower b
  | FilterPat.regex t => t b

/-- `DatapackFilter` (datapackDeployer.ts lines 128-130): an optional
datapack-type filter and an optional (normalized sobject type) record
filter. -/
structure DatapackFilter where
  datapackFilter : Option FilterPat := none
  recordFilter : Option FilterPat := none

/-- Evaluation of an optional filter pattern: TypeScript
`!!filter.x && isMatch(filter.x, arg)` — an absent pattern never
matches. -/
def optMatch (p : Option FilterPat) (b : String) : Bool :=
  match p with
  | some a => isMatch a b
  | none => false

/-- `evalFilter` on a `DatapackDeploymentRecord` (datapackDeployer.ts
lines 422-424): the datapack filter against the record's datapack type,
or the record filter against its normalized sobject type. -/
def evalFilterRecord (f : DatapackFilter) (r : DatapackDeploymentRecord) : Bool :=
  optMatch f.datapackFilter r.datapackType || optMatch f.recordFilter r.normalizedSObjectType

/-- The fields of a `VlocityDatapack` read by `evalFilter`: its
datapack type and its sobject type with the namespace removed
(`removeNamespacePrefix` lives in `@vlocode/util`, not under src; the
stripped name is carried as a field). -/
structure VlocityDatapack where
  datapackType : String
  sobjectTypeNoNs : String
  deriving DecidableEq, Repr

/-- `evalFilter` on a `VlocityDatapack` (datapackDeployer.ts lines
425-427). -/
def evalFilterDatapack (f : DatapackFilter) (dp : VlocityDatapack) : Bool :=
  optMatch f.datapackFilter dp.datapackType || optMatch f.recordFilter dp.sobjectTypeNoNs

/-- Modelled from the spec: `DatapackDeploymentRecordGroup`
(datapackDeploymentRecordGroup.ts is not in src). Spec section 3:
"Attributes: `key` (grouping key), ordered list of member records"; the
deployer additionally reads the group's `datapackType`. Member records
are referenced by `sourceKey` into the deployment's record pool. -/
structure DatapackDeploymentRecordGroup where
  key : String
  datapackType : String
  records : List String
  deriving DecidableEq, Repr

/-- `evalFilter` on a `DatapackDeploymentRecordGroup`
(datapackDeployer.ts lines 428-429): only the datapack filter applies,
against the group's datapack type. -/
def evalFilterGroup (f : DatapackFilter) (g : DatapackDeploymentRecordGroup) : Bool :=
  optMatch f.datapackFilter g.datapackType

/-- The deployment's record pool: the authoritative store of the
records owned by one deployment. -/
abbrev RecordPool := List DatapackDeploymentRecord

/-- Resolves a payload reference (`sourceKey`) to the record it aliases
in the pool. -/
def findRecord (pool : RecordPool) (k : String) : Option DatapackDeploymentRecord :=
  pool.find? (fun r => r.sourceKey == k)

/-- Mutation of the record aliased by `k`, visible through every
payload that references it. -/
def updateRecord (pool : RecordPool) (k : String)
    (f : DatapackDeploymentRecord → DatapackDeploymentRecord) : RecordPool :=
  pool.map (fun r => if r.sourceKey == k then f r else r)

/-- The first event argument of a spec function
(datapackDeployer.ts lines 351-369): a readonly record array, a
`VlocityDatapack`, or a `DatapackDeploymentEvent` carrying record
groups. Records are referenced by `sourceKey`. -/
inductive Payload
  | recordArray (keys : List String)
  | datapack (dp : VlocityDatapack)
  | event (groups : List DatapackDeploymentRecordGroup)
  deriving DecidableEq, Repr

/-- `filterApplicableRecords` on a readonly record array
(datapackDeployer.ts line 413): keeps the records matching the spec's
filter. -/
def filterApplicableRecordKeys (f : DatapackFilter) (pool : RecordPool)
    (keys : List String) : List String :=
  keys.filter (fun k =>
    match findRecord pool k with
    | some r => evalFilterRecord f r
    | none => false)

/-- `filterApplicableRecords` on a record group (datapackDeployer.ts
line 411): a new group with the same key holding only the matching
records. -/
def filterApplicableGroup (f : DatapackFilter) (pool : RecordPool)
    (g : DatapackDeploymentRecordGroup) : DatapackDeploymentRecordGroup :=
  { g with records := filterApplicableRecordKeys f pool g.records }

/-- The payload-narrowing step of `runSpecFunction`
(datapackDeployer.ts lines 351-369): record arrays are narrowed to the
matching records (`none` when empty — the hook is skipped); a datapack
is passed whole or skipped per `evalFilter`; an event's groups are
passed whole when the group-level filter matches and otherwise narrowed
record-wise, dropping emptied groups (`none` when no group survives). -/
def narrowPayload (f : DatapackFilter) (pool : RecordPool) (p : Payload) : Option Payload :=
  match p with
  | Payload.recordArray keys =>
    let applicable := filterApplicableRecordKeys f pool keys
    if applicable.isEmpty then none else some (Payload.recordArray applicable)
  | Payload.datapack dp =>
    if evalFilterDatapack f dp then some (Payload.datapack dp) else none
  | Payload.event groups =>
    let narrowed := (groups.map (fun g =>
      if evalFilterGroup f g then g else filterApplicableGroup f pool g)).filter
        (fun g => !g.records.isEmpty)
    if narrowed.isEmpty then none else some (Payload.event narrowed)

/-- De-duplication keeping the first occurrence of each key, the
insertion order of the JavaScript `Set` used by `getAffectedRecords`. -/
def dedupKeys : List String → List String
  | [] => []
  | k :: ks => k :: (dedupKeys ks).filter (fun x => x ≠ k)

/-- `getAffectedRecords` (datapackDeployer.ts lines 393-405) applied to
the event arguments: the de-duplicated records reachable from the
payload — all records of an event's groups, all records of a record
array, none for a datapack argument. -/
def affectedKeys (p : Payload) : List String :=
  match p with
  | Payload.recordArray keys => dedupKeys keys
  | Payload.datapack _ => []
  | Payload.event groups => dedupKeys (groups.map (fun g => g.records)).flatten

/-- The `errorSeverity` of `DeploymentSpecExecuteOptions`. -/
inductive ErrorSeverity
  | warn
  | error
  deriving DecidableEq, Repr

/-- `DeploymentSpecExecuteOptions` (the options passed to
`runSpecFunction`): the event arguments, whether hook errors are
contained, and with which severity they are attached to records. -/
structure ExecOptions where
  args : Payload
  ignoreErrors : Bool := false
  errorSeverity : Option ErrorSeverity := none

/-- The error text attached to records by `handleSpecFunctionError`
(datapackDeployer.ts lines 386-388). -/
def specErrorText (eventType msg : String) : String :=
  eventType ++ " spec error: " ++ msg

/-- The per-record mutation applied by `handleSpecFunctionError`: a
warning for severity `warn`, a failure for severity `error`, nothing
otherwise. -/
def severityMutator (sev : Option ErrorSeverity) (text : String) :
    DatapackDeploymentRecord → DatapackDeploymentRecord :=
  match sev with
  | some ErrorSeverity.warn => DatapackDeploymentRecord.addWarning text
  | some ErrorSeverity.error => DatapackDeploymentRecord.setFailed text
  | none => id

/-- `handleSpecFunctionError` (datapackDeployer.ts lines 382-391): logs
and attaches the error to every record reachable from the event
arguments, as a warning or a failure per `errorSeverity`. -/
def handleSpecFunctionError (eventType msg : String) (opts : ExecOptions)
    (pool : RecordPool) : RecordPool :=
  (affectedKeys opts.args).foldl
    (fun acc k => updateRecord acc k (severityMutator opts.errorSeverity (specErrorText eventType msg)))
    pool

/-- One registered deployment spec as seen by the dispatcher
(spec registry, spec section 4.5): its `DatapackFilter` and, when the
spec implements the dispatched event's function, the observable hook
behaviour — `none` on success, `some msg` when invoking it on the given
payload throws an error with message `msg`. -/
structure RegisteredSpec where
  filter : DatapackFilter
  fn : Option (Payload → Option String)

/-- The outcome of a dispatch that did not propagate an error: the
record pool after all contained hook errors were attached, and the
hook invocations performed, in registration order, each with the
narrowed payload it received (`Nat` identifies the registered spec). -/
structure DispatchResult where
  pool : RecordPool
  invocations : List (Nat × Payload)

/-- `runSpecFunction` (datapackDeployer.ts lines 342-380): iterates the
registered specs in registration order; skips a spec that does not
implement the event's function; narrows the payload by the spec's
filter and skips the spec when nothing remains; invokes the hook on the
narrowed payload; on a hook error, propagates it when `ignoreErrors` is
not set, and otherwise attaches it to the records reachable from the
(original) event arguments and continues with the next spec. -/
def runSpecFunction (eventType : String) (opts : ExecOptions) :
    List (Nat × RegisteredSpec) → RecordPool → Except String DispatchResult
  | [], pool => Except.ok { pool := pool, invocations := [] }
  | (i, spec) :: rest, pool =>
    match spec.fn with
    | none => runSpecFunction eventType opts rest pool
    | some f =>
      match narrowPayload spec.filter pool opts.args with
      | none => runSpecFunction eventType opts rest pool
      | some narrowed =>
        match f narrowed with
        | none =>
          (runSpecFunction eventType opts rest pool).map
            (fun res => { res with invocations := (i, narrowed) :: res.invocations })
        | some msg =>
          if opts.ignoreErrors then
            (runSpecFunction eventType opts rest
                (handleSpecFunctionError eventType msg opts pool)).map
              (fun res => { res with invocations := (i, narrowed) :: res.invocations })
          else
            Except.error msg

/-- `addWarning` leaves the record's identity (source key) unchanged. -/
theorem addWarning_sourceKey (msg : String) (r : DatapackDeploymentRecord) :
    (r.addWarning msg).sourceKey = r.sourceKey := rfl

/-- `setFailed` leaves the record's identity (source key) unchanged. -/
theorem setFailed_sourceKey (msg : String) (r : DatapackDeploymentRecord) :
    (r.setFailed msg).sourceKey = r.sourceKey := rfl

/-- The severity mutator leaves the record's identity unchanged. -/
theorem severityMutator_sourceKey (sev : Option ErrorSeverity) (text : String)
    (r : DatapackDeploymentRecord) :
    (severityMutator sev text r).sourceKey = r.sourceKey := by
  cases sev with
  | none => rfl
  | some s => cases s <;> rfl

/-- Looking a key up after mutating the record aliased by another key:
only the aliased record changes, and it changes by exactly the
mutation. -/
theorem findRecord_updateRecord (pool : RecordPool) (k k2 : String)
    (f : DatapackDeploymentRecord → DatapackDeploymentRecord)
    (hf : ∀ r, (f r).sourceKey = r.sourceKey) :
    findRecord (updateRecord pool k f) k2 =
      if k2 = k then (findRecord pool k2).map f else findRecord pool k2 := by
  unfold findRecord updateRecord
  rw [List.find?_map]
  have hpred : ((fun r : DatapackDeploymentRecord => r.sourceKey == k2) ∘
      (fun r => if r.sourceKey == k then f r else r))
      = fun r : DatapackDeploymentRecord => r.sourceKey == k2 := by
    funext r
    by_cases hrk : r.sourceKey = k <;> simp [hrk, hf]
  rw [hpred]
  cases hfind : pool.find? (fun r => r.sourceKey == k2) with
  | none => split <;> rfl
  | some r0 =>
    have hr0 : r0.sourceKey = k2 := by
      have := List.find?_some hfind
      simpa [beq_iff_eq] using this
    by_cases hk : k2 = k
    · subst hk
      simp [hr0]
    · have : (r0.sourceKey == k) = false := by simp [hr0, hk]
      simp [hk, this]
      intro hcontra
      exact absurd (hr0 ▸ hcontra) hk

/-- De-duplication keeps exactly the original keys. -/
theorem mem_dedupKeys (l : List String) (k : String) :
    k ∈ dedupKeys l ↔ k ∈ l := by
  induction l with
  | nil => simp [dedupKeys]
  | cons k0 ks ih =>
    simp only [dedupKeys, List.mem_cons, List.mem_filter, ih]
    constructor
    · rintro (rfl | ⟨hk, _⟩)
      · exact Or.inl rfl
      · exact Or.inr hk
    · rintro (rfl | hk)
      · exact Or.inl rfl
      · by_cases hek : k = k0
        · exact Or.inl hek
        · exact Or.inr ⟨hk, by simpa using hek⟩

/-- De-duplication yields a list without duplicates. -/
theorem nodup_dedupKeys (l : List String) : (dedupKeys l).Nodup := by
  induction l with
  | nil => simp [dedupKeys]
  | cons k0 ks ih =>
    simp only [dedupKeys, List.nodup_cons]
    refine ⟨?_, List.Nodup.filter _ ih⟩
    intro hmem
    exact (by simpa using (List.mem_filter.mp hmem).2 : k0 ≠ k0) rfl

/-- Folding a per-key mutation over a duplicate-free key list: each
listed key's record is mutated once, all other records are
untouched. -/
theorem findRecord_foldl_update (keys : List String) (hnd : keys.Nodup)
    (mu : DatapackDeploymentRecord → DatapackDeploymentRecord)
    (hm : ∀ r, (mu r).sourceKey = r.sourceKey) (pool : RecordPool) (k : String) :
    findRecord (keys.foldl (fun acc k2 => updateRecord acc k2 mu) pool) k =
      if k ∈ keys then (findRecord pool k).map mu else findRecord pool k := by
  induction keys generalizing pool with
  | nil => simp
  | cons k0 ks ih =>
    have hk0 : k0 ∉ ks := (List.nodup_cons.mp hnd).1
    have hnd2 : ks.Nodup := (List.nodup_cons.mp hnd).2
    simp only [List.foldl_cons]
    rw [ih hnd2]
    by_cases hkks : k ∈ ks
    · have hkk0 : k ≠ k0 := fun h => hk0 (h ▸ hkks)
      rw [if_pos hkks, if_pos (List.mem_cons_of_mem _ hkks),
        findRecord_updateRecord pool k0 k mu hm, if_neg hkk0]
    · rw [if_neg hkks, findRecord_updateRecord pool k0 k mu hm]
      by_cases hkk0 : k = k0
      · rw [if_pos hkk0, if_pos (by simp [hkk0])]
      · rw [if_neg hkk0, if_neg (by simp [hkk0, hkks])]

/-- C2: for a deployment-spec hook invocation whose hook throws (the
spec implements the event's function, the payload narrowed by its
filter is non-empty, and invoking the hook on it throws `msg`): when
`ignoreErrors` is not set the error propagates and aborts the dispatch;
when `ignoreErrors` is set the dispatch continues with the remaining
registered specs on a pool in which exactly the records reachable from
the (original) event payload are mutated — each by the severity
mutator, which adds the error as a warning for severity `warn` and
marks the record Failed for severity `error` — and every record outside
the event payload is unchanged. -/
theorem runSpecFunction_error_containment
    (eventType : String) (opts : ExecOptions) (i : Nat) (spec : RegisteredSpec)
    (rest : List (Nat × RegisteredSpec)) (pool : RecordPool)
    (f : Payload → Option String) (hfn : spec.fn = some f)
    (narrowed : Payload) (hnarrow : narrowPayload spec.filter pool opts.args = some narrowed)
    (msg : String) (hthrow : f narrowed = some msg) :
    (opts.ignoreErrors = false →
      runSpecFunction eventType opts ((i, spec) :: rest) pool = Except.error msg) ∧
    (opts.ignoreErrors = true →
      runSpecFunction eventType opts ((i, spec) :: rest) pool
        = (runSpecFunction eventType opts rest
              (handleSpecFunctionError eventType msg opts pool)).map
            (fun res => { res with invocations := (i, narrowed) :: res.invocations })) ∧
    (∀ k, k ∉ affectedKeys opts.args →
      findRecord (handleSpecFunctionError eventType msg opts pool) k = findRecord pool k) ∧
    (∀ k, k ∈ affectedKeys opts.args →
      findRecord (handleSpecFunctionError eventType msg opts pool) k
        = (findRecord pool k).map
            (severityMutator opts.errorSeverity (specErrorText eventType msg))) ∧
    (∀ text, severityMutator (some ErrorSeverity.warn) text
        = DatapackDeploymentRecord.addWarning text ∧
      severityMutator (some ErrorSeverity.error) text
        = DatapackDeploymentRecord.setFailed text) := by
  have hnodup : (affectedKeys opts.args).Nodup := by
    unfold affectedKeys
    cases opts.args with
    | recordArray keys => exact nodup_dedupKeys keys
    | datapack dp => simp
    | event groups => exact nodup_dedupKeys _
  refine ⟨?_, ?_, ?_, ?_, ?_⟩
  · intro hig
    simp [runSpecFunction, hfn, hnarrow, hthrow, hig]
  · intro hig
    simp [runSpecFunction, hfn, hnarrow, hthrow, hig]
  · intro k hk
    unfold handleSpecFunctionError
    rw [findRecord_foldl_update _ hnodup _ (severityMutator_sourceKey _ _), if_neg hk]
  · intro k hk
    unfold handleSpecFunctionError
    rw [findRecord_foldl_update _ hnodup _ (severityMutator_sourceKey _ _), if_pos hk]
  · intro text
    exact ⟨rfl, rfl⟩

/-- A key survives the record-array narrowing exactly when it is in
the payload and aliases a pool record matching the spec's filter. -/
theorem mem_filterApplicableRecordKeys (f : DatapackFilter) (pool : RecordPool)
    (keys : List String) (k : String) :
    k ∈ filterApplicableRecordKeys f pool keys ↔
      k ∈ keys ∧ ∃ r, findRecord pool k = some r ∧ evalFilterRecord f r = true := by
  unfold filterApplicableRecordKeys
  rw [List.mem_filter]
  constructor
  · rintro ⟨hk, hp⟩
    refine ⟨hk, ?_⟩
    cases hfind : findRecord pool k with
    | none => rw [hfind] at hp; simp at hp
    | some r => rw [hfind] at hp; exact ⟨r, rfl, hp⟩
  · rintro ⟨hk, r, hfind, heval⟩
    exact ⟨hk, by rw [hfind]; exact heval⟩

/-- C3: for a registered spec with a filter: when narrowing the payload
by the filter leaves nothing, the hook is not invoked at all and
dispatch proceeds as if the spec were absent; when something remains
(and the hook succeeds) the hook is invoked on exactly the narrowed
payload; a record-array payload narrows to exactly the keys aliasing a
record matching the filter, and is skipped entirely when no record
matches; and a spec whose `datapackFilter` is the string `Account` is
never invoked for an event whose groups all have datapack type
`Contact`. -/
theorem runSpecFunction_filter_dispatch
    (eventType : String) (opts : ExecOptions) (i : Nat) (spec : RegisteredSpec)
    (rest : List (Nat × RegisteredSpec)) (pool : RecordPool)
    (f : Payload → Option String) (hfn : spec.fn = some f) :
    (narrowPayload spec.filter pool opts.args = none →
      runSpecFunction eventType opts ((i, spec) :: rest) pool
        = runSpecFunction eventType opts rest pool) ∧
    (∀ narrowed, narrowPayload spec.filter pool opts.args = some narrowed →
      f narrowed = none →
      runSpecFunction eventType opts ((i, spec) :: rest) pool
        = (runSpecFunction eventType opts rest pool).map
            (fun res => { res with invocations := (i, narrowed) :: res.invocations })) ∧
    (∀ keys ks, opts.args = Payload.recordArray keys →
      narrowPayload spec.filter pool opts.args = some (Payload.recordArray ks) →
      ∀ k, k ∈ ks ↔ k ∈ keys ∧
        ∃ r, findRecord pool k = some r ∧ evalFilterRecord spec.filter r = true) ∧
    (∀ keys, opts.args = Payload.recordArray keys →
      (∀ k ∈ keys, ∀ r, findRecord pool k = some r → evalFilterRecord spec.filter r = false) →
      narrowPayload spec.filter pool opts.args = none) ∧
    (∀ groups, opts.args = Payload.event groups →
      spec.filter = { datapackFilter := some (FilterPat.str "Account"), recordFilter := none } →
      (∀ g ∈ groups, g.datapackType = "Contact" ∧
        ∀ k ∈ g.records, ∀ r, findRecord pool k = some r → r.datapackType = "Contact") →
      runSpecFunction eventType opts ((i, spec) :: rest) pool
        = runSpecFunction eventType opts rest pool) := by
  refine ⟨?_, ?_, ?_, ?_, ?_⟩
  · intro hn
    simp [runSpecFunction, hfn, hn]
  · intro narrowed hn hok
    simp [runSpecFunction, hfn, hn, hok]
  · intro keys ks hargs hn k
    rw [hargs] at hn
    simp only [narrowPayload] at hn
    by_cases he : (filterApplicableRecordKeys spec.filter pool keys).isEmpty = true
    · simp [he] at hn
    · simp only [he] at hn
      rw [if_neg (by simp)] at hn
      simp only [Option.some_inj, Payload.recordArray.injEq] at hn
      subst hn
      exact mem_filterApplicableRecordKeys spec.filter pool keys k
  · intro keys hargs hall
    rw [hargs]
    unfold narrowPayload
    have hempty : filterApplicableRecordKeys spec.filter pool keys = [] := by
      unfold filterApplicableRecordKeys
      rw [List.filter_eq_nil_iff]
      intro k hk
      cases hfind : findRecord pool k with
      | none => simp
      | some r => simpa using hall k hk r hfind
    simp [hempty]
  · intro groups hargs hfilter hall
    have hnil : (groups.map (fun g =>
        if evalFilterGroup spec.filter g then g
        else filterApplicableGroup spec.filter pool g)).filter
          (fun g => !g.records.isEmpty) = [] := by
      rw [List.filter_eq_nil_iff]
      intro g' hg'
      rw [List.mem_map] at hg'
      obtain ⟨g, hg, rfl⟩ := hg'
      obtain ⟨hdt, hrec⟩ := hall g hg
      have hevg : evalFilterGroup spec.filter g = false := by
        unfold evalFilterGroup
        rw [hfilter, hdt]
        decide
      rw [if_neg (by simp [hevg])]
      have hrecs : filterApplicableRecordKeys spec.filter pool g.records = [] := by
        unfold filterApplicableRecordKeys
        rw [List.filter_eq_nil_iff]
        intro k hk
        cases hfind : findRecord pool k with
        | none => simp
        | some r =>
          have hr := hrec k hk r hfind
          have h1 : isMatch (FilterPat.str "Account") "Contact" = false := by decide
          simp [evalFilterRecord, hfilter, hr, h1, optMatch]
      simp [filterApplicableGroup, hrecs]
    have hnone : narrowPayload spec.filter pool opts.args = none := by
      rw [hargs]
      unfold narrowPayload
      simp [hnil]
    simp [runSpecFunction, hfn, hnone]

/-- A fresh pending record with the given source key, datapack type and
(normalized) sobject type, used for concrete evaluations. -/
def mkRecord (k dt nt : String) : DatapackDeploymentRecord :=
  { sourceKey := k, datapackType := dt, sobjectType := nt, normalizedSObjectType := nt,
    values := [], status := DeploymentStatus.pending, recordId := none,
    warnings := [], errors := [] }

/-- A two-record pool: an Account record `a` and a Contact record
`b`. -/
def wPool : RecordPool :=
  [mkRecord "a" "Account" "account", mkRecord "b" "Contact" "contact"]

/-- An Account-filtered spec whose hook always throws `boom`. -/
def wThrowSpec : RegisteredSpec :=
  { filter := { datapackFilter := some (FilterPat.str "Account"), recordFilter := none },
    fn := some (fun _ => some "boom") }

/-- Dispatch options for a record-array event over record `a`,
containing errors with severity `error`. -/
def wOptsErr : ExecOptions :=
  { args := Payload.recordArray ["a"], ignoreErrors := true,
    errorSeverity := some ErrorSeverity.error }

/-- Witness for C2: the containment theorem evaluated for a throwing
Account spec dispatched over the one-record payload `a` in a pool also
holding an unrelated record `b`. -/
theorem runSpecFunction_error_containment_witness :
    (wOptsErr.ignoreErrors = false →
      runSpecFunction "beforeDeployRecord" wOptsErr [(0, wThrowSpec)] wPool
        = Except.error "boom") ∧
    (wOptsErr.ignoreErrors = true →
      runSpecFunction "beforeDeployRecord" wOptsErr [(0, wThrowSpec)] wPool
        = (runSpecFunction "beforeDeployRecord" wOptsErr []
              (handleSpecFunctionError "beforeDeployRecord" "boom" wOptsErr wPool)).map
            (fun res => { res with
              invocations := (0, Payload.recordArray ["a"]) :: res.invocations })) ∧
    (∀ k, k ∉ affectedKeys wOptsErr.args →
      findRecord (handleSpecFunctionError "beforeDeployRecord" "boom" wOptsErr wPool) k
        = findRecord wPool k) ∧
    (∀ k, k ∈ affectedKeys wOptsErr.args →
      findRecord (handleSpecFunctionError "beforeDeployRecord" "boom" wOptsErr wPool) k
        = (findRecord wPool k).map
            (severityMutator wOptsErr.errorSeverity
              (specErrorText "beforeDeployRecord" "boom"))) ∧
    (∀ text, severityMutator (some ErrorSeverity.warn) text
        = DatapackDeploymentRecord.addWarning text ∧
      severityMutator (some ErrorSeverity.error) text
        = DatapackDeploymentRecord.setFailed text) :=
  runSpecFunction_error_containment "beforeDeployRecord" wOptsErr 0 wThrowSpec [] wPool
    (fun _ => some "boom") rfl (Payload.recordArray ["a"]) (by decide) "boom" rfl

/-- An Account-filtered spec whose hook always succeeds. -/
def wOkSpec : RegisteredSpec :=
  { filter := { datapackFilter := some (FilterPat.str "Account"), recordFilter := none },
    fn := some (fun _ => none) }

/-- Dispatch options for a record-array event over records `a` and
`b`. -/
def wOptsArr : ExecOptions :=
  { args := Payload.recordArray ["a", "b"], ignoreErrors := true,
    errorSeverity := some ErrorSeverity.warn }

/-- Dispatch options for a group event holding one Contact group with
record `b`. -/
def wOptsEvt : ExecOptions :=
  { args := Payload.event [{ key := "grp", datapackType := "Contact", records := ["b"] }],
    ignoreErrors := true, errorSeverity := some ErrorSeverity.warn }

/-- Witness for C3: the filtering theorem evaluated for an Account
spec over the record array `[a, b]` (invoked on exactly `[a]`) and over
a Contact group event (skipped entirely). -/
theorem runSpecFunction_filter_dispatch_witness :
    (runSpecFunction "beforeDeployRecord" wOptsArr [(0, wOkSpec)] wPool
      = (runSpecFunction "beforeDeployRecord" wOptsArr [] wPool).map
          (fun res => { res with
            invocations := (0, Payload.recordArray ["a"]) :: res.invocations })) ∧
    (∀ k, k ∈ ["a"] ↔ k ∈ ["a", "b"] ∧
      ∃ r, findRecord wPool k = some r ∧ evalFilterRecord wOkSpec.filter r = true) ∧
    (runSpecFunction "beforeDeploy" wOptsEvt [(0, wOkSpec)] wPool
      = runSpecFunction "beforeDeploy" wOptsEvt [] wPool) :=
  ⟨(runSpecFunction_filter_dispatch "beforeDeployRecord" wOptsArr 0 wOkSpec [] wPool
      (fun _ => none) rfl).2.1 (Payload.recordArray ["a"]) (by decide) rfl,
   fun k => (runSpecFunction_filter_dispatch "beforeDeployRecord" wOptsArr 0 wOkSpec [] wPool
      (fun _ => none) rfl).2.2.1 ["a", "b"] ["a"] rfl (by decide) k,
   (runSpecFunction_filter_dispatch "beforeDeploy" wOptsEvt 0 wOkSpec [] wPool
      (fun _ => none) rfl).2.2.2.2
     [{ key := "grp", datapackType := "Contact", records := ["b"] }] rfl rfl
     (by
       intro g hg
       simp only [List.mem_singleton] at hg
       subst hg
       refine ⟨rfl, ?_⟩
       intro k hk r hr
       simp only [List.mem_singleton] at hk
       subst hk
       have hfind : findRecord wPool "b" = some (mkRecord "b" "Contact" "contact") := by decide
       rw [hfind] at hr
       cases hr
       rfl)⟩

/-! ## Deployment event handlers (C10) and trigger restoration (C1)

Shallow embedding of the `DatapackDeployer` event handlers
`beforeDeployRecord`, `afterDeployRecord`, `beforeDeployRecordGroup`
and `afterDeployRecordGroup` (datapackDeployer.ts lines 277-334) as the
ordered trace of the awaited calls each handler performs. A
`setTriggerState b` action denotes a `setVlocityTriggerState(b)` call
(the global trigger toggle in the target org, lines 201-219); `runSpec`
denotes a `runSpecFunction` dispatch (which invokes the registered
hooks); `executeUpdateBatch` the corrective update batch of
`verifyDeployedFieldData`; `remoteDml` a record batch submission of the
deployment body. -/

/-- One observable action of the deployment run. -/
inductive DeployAction
  | setTriggerState (enabled : Bool)
  | executeUpdateBatch
  | remoteDml
  | runSpec (eventType : String)
  deriving DecidableEq, Repr

/-- The deployment state read by the event handlers: the
`disableTriggers` option and the cooperative cancellation flag. -/
structure DeploymentFlags where
  disableTriggers : Bool
  isCancelled : Bool
  deriving DecidableEq, Repr

/-- The trigger-toggling part of `verifyDeployedFieldData`
(datapackDeployer.ts lines 260-274): only when there are mismatched
records to correct, triggers are turned off, the corrective update
batch runs, and triggers are turned back on in a `finally` block —
the re-enable happens even if the update throws. -/
def verifyFieldDataActions (hasMismatches : Bool) : List DeployAction :=
  if hasMismatches then
    [DeployAction.setTriggerState false, DeployAction.executeUpdateBatch,
     DeployAction.setTriggerState true]
  else []

/-- The `beforeDeployRecord` handler (datapackDeployer.ts lines
277-289): disables triggers when `disableTriggers` is set, then — only
when the deployment is not cancelled — dispatches the
`beforeDeployRecord` specs. -/
def beforeDeployRecordActions (d : DeploymentFlags) : List DeployAction :=
  (if d.disableTriggers then [DeployAction.setTriggerState false] else []) ++
  (if d.isCancelled then [] else [DeployAction.runSpec "beforeDeployRecord"])

/-- The `afterDeployRecord` handler (datapackDeployer.ts lines
291-304): re-enables triggers when `disableTriggers` is set, then —
only when the deployment is not cancelled — verifies the deployed
field data and dispatches the `afterDeployRecord` specs. -/
def afterDeployRecordActions (d : DeploymentFlags) (hasMismatches : Bool) :
    List DeployAction :=
  (if d.disableTriggers then [DeployAction.setTriggerState true] else []) ++
  (if d.isCancelled then []
   else verifyFieldDataActions hasMismatches ++ [DeployAction.runSpec "afterDeployRecord"])

/-- The `beforeDeployRecordGroup` handler (datapackDeployer.ts lines
310-319): dispatches the `beforeDeploy` specs unless the deployment is
cancelled. -/
def beforeDeployRecordGroupActions (d : DeploymentFlags) : List DeployAction :=
  if d.isCancelled then [] else [DeployAction.runSpec "beforeDeploy"]

/-- The `afterDeployRecordGroup` handler (datapackDeployer.ts lines
325-334): dispatches the `afterDeploy` specs unless the deployment is
cancelled. -/
def afterDeployRecordGroupActions (d : DeploymentFlags) : List DeployAction :=
  if d.isCancelled then [] else [DeployAction.runSpec "afterDeploy"]

/-- C10: once the deployment's `isCancelled` flag is set, none of the
four event handlers dispatches any registered deployment-spec hook
(no `runSpec` action occurs), while the trigger-state toggling
controlled by `disableTriggers` still executes on the record events:
`beforeDeployRecord` still disables and `afterDeployRecord` still
re-enables the triggers. -/
theorem cancelled_skips_hooks_not_triggers (d : DeploymentFlags)
    (hm : Bool) (hc : d.isCancelled = true) :
    (∀ e, DeployAction.runSpec e ∉ beforeDeployRecordActions d) ∧
    (∀ e, DeployAction.runSpec e ∉ afterDeployRecordActions d hm) ∧
    (∀ e, DeployAction.runSpec e ∉ beforeDeployRecordGroupActions d) ∧
    (∀ e, DeployAction.runSpec e ∉ afterDeployRecordGroupActions d) ∧
    (d.disableTriggers = true →
      DeployAction.setTriggerState false ∈ beforeDeployRecordActions d ∧
      DeployAction.setTriggerState true ∈ afterDeployRecordActions d hm) := by
  refine ⟨?_, ?_, ?_, ?_, ?_⟩
  · intro e
    simp [beforeDeployRecordActions, hc]
  · intro e
    simp [afterDeployRecordActions, hc]
  · intro e
    simp [beforeDeployRecordGroupActions, hc]
  · intro e
    simp [afterDeployRecordGroupActions, hc]
  · intro hd
    constructor
    · simp [beforeDeployRecordActions, hd]
    · simp [afterDeployRecordActions, hd]

/-- Witness for C10: the cancellation theorem evaluated on a cancelled
deployment with `disableTriggers` enabled. -/
theorem cancelled_skips_hooks_not_triggers_witness :
    ({ disableTriggers := true, isCancelled := true } : DeploymentFlags).isCancelled = true ∧
    ((∀ e, DeployAction.runSpec e
        ∉ beforeDeployRecordActions { disableTriggers := true, isCancelled := true }) ∧
     (∀ e, DeployAction.runSpec e
        ∉ afterDeployRecordActions { disableTriggers := true, isCancelled := true } false) ∧
     (∀ e, DeployAction.runSpec e
        ∉ beforeDeployRecordGroupActions { disableTriggers := true, isCancelled := true }) ∧
     (∀ e, DeployAction.runSpec e
        ∉ afterDeployRecordGroupActions { disableTriggers := true, isCancelled := true }) ∧
     (({ disableTriggers := true, isCancelled := true } : DeploymentFlags).disableTriggers = true →
       DeployAction.setTriggerState false
         ∈ beforeDeployRecordActions { disableTriggers := true, isCancelled := true } ∧
       DeployAction.setTriggerState true
         ∈ afterDeployRecordActions { disableTriggers := true, isCancelled := true } false)) :=
  ⟨rfl, cancelled_skips_hooks_not_triggers { disableTriggers := true, isCancelled := true }
    false rfl⟩

/-- One record-batch episode of a deployment run: the deployment body
submits record batches between the `beforeDeployRecord` and
`afterDeployRecord` events; the body may throw, the post-deploy
verification may find mismatches, and cancellation may have been
observed. -/
structure BatchEpisode where
  isCancelled : Bool
  bodyThrows : Bool
  hasMismatches : Bool
  deriving DecidableEq, Repr

/-- The actions of one episode: the `beforeDeployRecord` handler, the
body's batch submission (cut short when it throws), and — in a
`finally`-equivalent guaranteed-cleanup position — the
`afterDeployRecord` handler, which runs even when the body throws. -/
def episodeActions (disableTriggers : Bool) (e : BatchEpisode) : List DeployAction :=
  beforeDeployRecordActions { disableTriggers := disableTriggers, isCancelled := e.isCancelled } ++
  (if e.bodyThrows then [] else [DeployAction.remoteDml]) ++
  afterDeployRecordActions { disableTriggers := disableTriggers, isCancelled := e.isCancelled }
    e.hasMismatches

/-- Modelled from the spec: the overall deployment run
(`DatapackDeployment.start`, datapackDeployment.ts, not under src).
Spec sections 4.3/5: the run emits `beforeDeployRecord` /
`afterDeployRecord` around each batch, and the global trigger toggle
"must be restored even if the deployment throws" — it is "restored in a
`finally`-equivalent guaranteed-cleanup block even on error", so the
`afterDeployRecord` handler of an episode runs even when that episode's
body throws, and the run stops after the first throwing episode.
Returns the emitted action trace and whether the run threw. -/
def deploymentRun (disableTriggers : Bool) : List BatchEpisode → List DeployAction × Bool
  | [] => ([], false)
  | e :: rest =>
    let acts := episodeActions disableTriggers e
    if e.bodyThrows then (acts, true)
    else
      let (more, threw) := deploymentRun disableTriggers rest
      (acts ++ more, threw)

/-- The trigger state in the target org after a trace of actions: each
`setTriggerState` write overwrites the previous state. -/
def triggerStateAfter (initial : Bool) (actions : List DeployAction) : Bool :=
  actions.foldl
    (fun st a =>
      match a with
      | DeployAction.setTriggerState b => b
      | _ => st)
    initial

/-- The trigger state after an appended trace only depends on the
second part once it writes; folding is compositional. -/
theorem triggerStateAfter_append (initial : Bool) (l₁ l₂ : List DeployAction) :
    triggerStateAfter initial (l₁ ++ l₂)
      = triggerStateAfter (triggerStateAfter initial l₁) l₂ := by
  unfold triggerStateAfter
  rw [List.foldl_append]

/-- An episode always leaves the triggers enabled when
`disableTriggers` is set: the `afterDeployRecord` handler re-enables
them first thing, and the verification's own toggling re-enables them
in its `finally`. -/
theorem episode_leaves_triggers_enabled (e : BatchEpisode) (st : Bool) :
    triggerStateAfter st (episodeActions true e) = true := by
  unfold episodeActions
  rw [triggerStateAfter_append, triggerStateAfter_append]
  unfold afterDeployRecordActions
  rw [triggerStateAfter_append]
  cases e.isCancelled with
  | true => rfl
  | false =>
    cases e.hasMismatches with
    | true => rfl
    | false => rfl

/-- C1: when the `disableTriggers` option is enabled, the global
trigger-disable flag of the target org is restored (triggers
re-enabled) by the end of the run in every case — in particular when
the deployment throws in some episode's body, because the
`afterDeployRecord` cleanup of that episode still runs. -/
theorem disableTriggers_restored (dt : Bool) (hdt : dt = true)
    (initial : Bool) (hinit : initial = true) (episodes : List BatchEpisode) :
    triggerStateAfter initial (deploymentRun dt episodes).1 = true := by
  subst hdt hinit
  induction episodes with
  | nil => rfl
  | cons e rest ih =>
    unfold deploymentRun
    cases hb : e.bodyThrows with
    | true =>
      simp only [hb, if_true]
      exact episode_leaves_triggers_enabled e true
    | false =>
      simp only [hb, Bool.false_eq_true, if_false]
      rw [triggerStateAfter_append, episode_leaves_triggers_enabled e true]
      exact ih

/-- Witness for C1: the restoration theorem evaluated on a run whose
second episode's body throws (with a mismatch-correcting first
episode); the run throws, yet the final trigger state is enabled. -/
theorem disableTriggers_restored_witness :
    (true = true ∧ true = true) ∧
    triggerStateAfter true
      (deploymentRun true
        [{ isCancelled := false, bodyThrows := false, hasMismatches := true },
         { isCancelled := false, bodyThrows := true, hasMismatches := false }]).1 = true ∧
    (deploymentRun true
      [{ isCancelled := false, bodyThrows := false, hasMismatches := true },
       { isCancelled := false, bodyThrows := true, hasMismatches := false }]).2 = true :=
  ⟨⟨rfl, rfl⟩,
   disableTriggers_restored true rfl true rfl
     [{ isCancelled := false, bodyThrows := false, hasMismatches := true },
      { isCancelled := false, bodyThrows := true, hasMismatches := false }],
   by decide⟩

/-! ## C8 — post-deploy field verification

Shallow embedding of `DatapackDeployer.verifyDeployedFieldData`
(datapackDeployer.ts lines 227-275) as called from `afterDeployRecord`
(lines 291-304). The schema service is abstracted to a predicate
`schemaHas type field` (`describeSObjectField(type, name, false)`
returns a field or undefined); the org query (`lookupById`) to a
function from record ID to the org record's field values; the
corrective `RecordBatch` to a function from the update batch to its
per-record results. The source iterates the org rows returned for the
deployed records' IDs; the embedding equivalently iterates the deployed
records whose ID has an org row. -/

/-- JavaScript property access on a field-value map: the value of the
first binding of the field, or `undefined`. -/
def lookupField (vals : List (String × String)) (f : String) : Option String :=
  (vals.find? (fun p => p.1 == f)).map Prod.snd

/-- One corrective update queued by the verification: the record's
sobject type and ID plus, per mismatched field, the expected (deployed)
value written back (`undefined` clears the field). -/
structure FieldUpdate where
  sobjectType : String
  id : String
  fields : List (String × Option String)
  deriving DecidableEq, Repr

/-- The mismatch comparison of `verifyDeployedFieldData`
(datapackDeployer.ts lines 245-249): for each verified field, the org
value (`actual`) is compared against the deployed record's value
(`expected`) with strict inequality; mismatched fields are collected
with the expected value to write back. -/
def mismatchedFields (fields : List String) (orgVals vals : List (String × String)) :
    List (String × Option String) :=
  fields.filterMap (fun f =>
    let actual := lookupField orgVals f
    let expected := lookupField vals f
    if actual ≠ expected then some (f, expected) else none)

/-- `verifyDeployedFieldData` (datapackDeployer.ts lines 227-258):
groups the records with status Deployed by sobject type; per type keeps
the critical fields the type actually has (skipping the type when
none); and for each deployed record whose ID has an org row, queues one
corrective update exactly when some verified field mismatches. -/
def verifyDeployedFieldData (schemaHas : String → String → Bool)
    (org : String → Option (List (String × String)))
    (records : List DatapackDeploymentRecord) (fieldNames : List String) :
    List FieldUpdate :=
  let deployed := records.filter (fun r => r.isDeployed)
  (dedupKeys (deployed.map (fun r => r.sobjectType))).flatMap (fun t =>
    let fields := fieldNames.filter (schemaHas t)
    if fields.isEmpty then []
    else
      (deployed.filter (fun r => r.sobjectType == t)).filterMap (fun r =>
        match r.recordId with
        | none => none
        | some id =>
          match org id with
          | none => none
          | some orgVals =>
            let mism := mismatchedFields fields orgVals r.values
            if mism.isEmpty then none
            else some { sobjectType := t, id := id, fields := mism }))

/-- The verification step run by `afterDeployRecord`
(datapackDeployer.ts lines 260-274 and 298): computes the corrective
update batch, executes it when non-empty, and only logs the failed
update results; the deployment's records (and their statuses) are
returned unchanged and the step never raises. -/
def verifyStep (schemaHas : String → String → Bool)
    (org : String → Option (List (String × String)))
    (remote : List FieldUpdate → List BatchResult)
    (records : List DatapackDeploymentRecord) (fieldNames : List String) :
    List DatapackDeploymentRecord × List FieldUpdate × List String :=
  let updates := verifyDeployedFieldData schemaHas org records fieldNames
  let logs :=
    if updates.isEmpty then []
    else (remote updates).filterMap (fun res =>
      res.error.map (fun e =>
        "Field update failed for " ++ res.recordId.getD "" ++ " -- " ++ e))
  (records, updates, logs)

/-- C8: post-deploy field verification only compares records whose
status is Deployed — every queued corrective update belongs to a
Deployed record and carries its assigned record ID; conversely every
Deployed record with an org row and a mismatched verified field gets a
corrective update carrying exactly its mismatched fields with the
expected values; and the verification step returns the deployment's
records unchanged (no status change, no failure) while failures of the
corrective update are only logged. -/
theorem verifyDeployedFieldData_correct (schemaHas : String → String → Bool)
    (org : String → Option (List (String × String)))
    (remote : List FieldUpdate → List BatchResult)
    (records : List DatapackDeploymentRecord) (fieldNames : List String) :
    (∀ u ∈ verifyDeployedFieldData schemaHas org records fieldNames,
      ∃ r ∈ records, r.isDeployed = true ∧ r.recordId = some u.id ∧
        u.sobjectType = r.sobjectType) ∧
    (∀ r ∈ records, r.isDeployed = true →
      ∀ id, r.recordId = some id →
      ∀ orgVals, org id = some orgVals →
      (fieldNames.filter (schemaHas r.sobjectType)).isEmpty = false →
      (mismatchedFields (fieldNames.filter (schemaHas r.sobjectType)) orgVals r.values).isEmpty
        = false →
      ∃ u ∈ verifyDeployedFieldData schemaHas org records fieldNames,
        u.id = id ∧ u.sobjectType = r.sobjectType ∧
        u.fields
          = mismatchedFields (fieldNames.filter (schemaHas r.sobjectType)) orgVals r.values) ∧
    ((verifyStep schemaHas org remote records fieldNames).1 = records) ∧
    ((verifyStep schemaHas org remote records fieldNames).2.1
      = verifyDeployedFieldData schemaHas org records fieldNames) := by
  refine ⟨?_, ?_, rfl, rfl⟩
  · intro u hu
    simp only [verifyDeployedFieldData] at hu
    rw [List.mem_flatMap] at hu
    obtain ⟨t, _, hu⟩ := hu
    split at hu
    · exact absurd hu (by simp)
    · rw [List.mem_filterMap] at hu
      obtain ⟨r, hr, hg⟩ := hu
      rw [List.mem_filter] at hr
      obtain ⟨hrd, hrt⟩ := hr
      rw [List.mem_filter] at hrd
      obtain ⟨hrmem, hdep⟩ := hrd
      refine ⟨r, hrmem, hdep, ?_⟩
      cases hid : r.recordId with
      | none => rw [hid] at hg; simp at hg
      | some id =>
        rw [hid] at hg
        dsimp only at hg
        cases horg : org id with
        | none => rw [horg] at hg; simp at hg
        | some orgVals =>
          rw [horg] at hg
          dsimp only at hg
          by_cases hmi :
              (mismatchedFields (List.filter (schemaHas t) fieldNames) orgVals r.values).isEmpty
                = true
          · rw [if_pos hmi] at hg; simp at hg
          · rw [if_neg hmi] at hg
            rw [Option.some_inj] at hg
            subst hg
            exact ⟨rfl, (eq_of_beq hrt).symm⟩
  · intro r hrmem hdep id hid orgVals horg hfs hmi
    refine ⟨{ sobjectType := r.sobjectType, id := id,
              fields := mismatchedFields (fieldNames.filter (schemaHas r.sobjectType))
                orgVals r.values }, ?_, rfl, rfl, rfl⟩
    simp only [verifyDeployedFieldData]
    rw [List.mem_flatMap]
    refine ⟨r.sobjectType, ?_, ?_⟩
    · rw [mem_dedupKeys, List.mem_map]
      exact ⟨r, List.mem_filter.mpr ⟨hrmem, hdep⟩, rfl⟩
    · rw [if_neg (by simp [hfs])]
      rw [List.mem_filterMap]
      refine ⟨r, ?_, ?_⟩
      · rw [List.mem_filter]
        exact ⟨List.mem_filter.mpr ⟨hrmem, hdep⟩, by simp⟩
      · simp only [hid, horg]
        rw [if_neg (by simp [hmi])]

/-- Schema stub for the verification witness: `Account` has the
critical field `GlobalKey__c`. -/
def wSchemaHas (t f : String) : Bool :=
  t == "account" && f == "GlobalKey__c"

/-- Org-data stub for the verification witness: record `001` exists
with a drifted `GlobalKey__c` value `y`. -/
def wOrg (id : String) : Option (List (String × String)) :=
  if id == "001" then some [("GlobalKey__c", "y")] else none

/-- A deployed Account record with ID `001` whose deployed
`GlobalKey__c` value is `x`. -/
def wDeployedRec : DatapackDeploymentRecord :=
  { mkRecord "a" "Account" "account" with
      status := DeploymentStatus.deployed, recordId := some "001",
      values := [("GlobalKey__c", "x")] }

/-- The single-record pool of the verification witness. -/
def wRecords : List DatapackDeploymentRecord := [wDeployedRec]

/-- Witness for C8: the verification theorem evaluated on one deployed
record whose org data drifted — a corrective update for exactly the
mismatched field is queued and the records are returned unchanged. -/
theorem verifyDeployedFieldData_correct_witness :
    (∃ u ∈ verifyDeployedFieldData wSchemaHas wOrg wRecords ["GlobalKey__c"],
      u.id = "001" ∧ u.sobjectType = wDeployedRec.sobjectType ∧
      u.fields = mismatchedFields
        (["GlobalKey__c"].filter (wSchemaHas wDeployedRec.sobjectType))
        [("GlobalKey__c", "y")] wDeployedRec.values) ∧
    (verifyStep wSchemaHas wOrg (fun _ => []) wRecords ["GlobalKey__c"]).1 = wRecords :=
  ⟨(verifyDeployedFieldData_correct wSchemaHas wOrg (fun _ => []) wRecords
      ["GlobalKey__c"]).2.1
      wDeployedRec (by simp [wRecords]) (by decide) "001" rfl
      [("GlobalKey__c", "y")] (by decide) (by decide) (by decide),
   (verifyDeployedFieldData_correct wSchemaHas wOrg (fun _ => []) wRecords
      ["GlobalKey__c"]).2.2.1⟩

/-! ## C4 — dependency readiness, submission order, skip propagation

Modelled from the spec: the dependency graph and the orchestrator loop
(`DatapackDeployment` / the graph builder, datapackDeployment.ts, not
under src). Spec section 3: "a record is 'ready' exactly when all
entries in its dependency set have `status == Deployed` (or are lookup
dependencies successfully pre-resolved)"; section 4.3: the loop selects
the ready records, submits them as a wave to the Batch Executor, marks
them Deployed or Failed per the remote results, propagates failures —
"every record transitively depending (via matching-key) on a Failed
record is marked Skipped" — and recomputes readiness; section 8: "R is
never submitted before S resolves to Deployed or Skipped-propagation
applies to R". -/

/-- Modelled from the spec: one entry of a record's dependency set — a
matching-key dependency naming another record of the run by source key,
or a lookup dependency carrying whether it was successfully
pre-resolved against org data. -/
inductive GraphDep
  | matching (key : String)
  | lookup (resolved : Bool)
  deriving DecidableEq, Repr

/-- Modelled from the spec: one record of the dependency graph — its
source key, its dependency set and its status. -/
structure GraphRecord where
  key : String
  deps : List GraphDep
  status : DeploymentStatus
  deriving DecidableEq, Repr

/-- The status of the record with the given source key. -/
def statusOf (recs : List GraphRecord) (k : String) : Option DeploymentStatus :=
  (recs.find? (fun r => r.key == k)).map (fun r => r.status)

/-- Modelled from the spec: satisfaction of one dependency entry (spec
section 3) — a matching dependency is satisfied when its target is
Deployed, a lookup dependency when it was successfully
pre-resolved. -/
def depSatisfied (recs : List GraphRecord) : GraphDep → Bool
  | GraphDep.matching k => statusOf recs k == some DeploymentStatus.deployed
  | GraphDep.lookup resolved => resolved

/-- Modelled from the spec: readiness — a Pending record every entry of
whose dependency set is satisfied. -/
def isReady (recs : List GraphRecord) (r : GraphRecord) : Bool :=
  r.status == DeploymentStatus.pending && r.deps.all (depSatisfied recs)

/-- Modelled from the spec: a matching dependency blocking its
dependent because its target Failed or was Skipped (spec section 4.3
step e). -/
def depFailed (recs : List GraphRecord) : GraphDep → Bool
  | GraphDep.matching k =>
    statusOf recs k == some DeploymentStatus.failed ||
      statusOf recs k == some DeploymentStatus.skipped
  | GraphDep.lookup _ => false

/-- Modelled from the spec: one skip-propagation pass — every Pending
record with a Failed or Skipped matching dependency is marked
Skipped. -/
def skipStep (recs : List GraphRecord) : List GraphRecord :=
  recs.map (fun r =>
    if r.status == DeploymentStatus.pending && r.deps.any (depFailed recs) then
      { r with status := DeploymentStatus.skipped }
    else r)

/-- Iterated skip-propagation passes. -/
def iterateSkips : Nat → List GraphRecord → List GraphRecord
  | 0, recs => recs
  | n + 1, recs => iterateSkips n (skipStep recs)

/-- Modelled from the spec: cascading skip propagation run to closure
(one pass per record suffices for a transitive chain). -/
def propagateSkips (recs : List GraphRecord) : List GraphRecord :=
  iterateSkips recs.length recs

/-- Modelled from the spec: submitting one wave — every ready record is
submitted to the remote API and marked Deployed or Failed per the
remote outcome `results`. -/
def deployWave (results : String → Bool) (recs : List GraphRecord) : List GraphRecord :=
  recs.map (fun r =>
    if isReady recs r then
      { r with status :=
          if results r.key then DeploymentStatus.deployed else DeploymentStatus.failed }
    else r)

/-- Modelled from the spec: the orchestrator loop (spec section 4.3) —
while some record is ready, submit the ready wave and propagate skips.
Returns the trace of (pre-state, submitted source keys) pairs and the
final record states. -/
def runDeployment (results : String → Bool) :
    Nat → List GraphRecord → List (List GraphRecord × List String) × List GraphRecord
  | 0, recs => ([], recs)
  | fuel + 1, recs =>
    if (recs.filter (isReady recs)).isEmpty then ([], recs)
    else
      let next := propagateSkips (deployWave results recs)
      let step := runDeployment results fuel next
      (((recs, (recs.filter (isReady recs)).map (fun r => r.key)) :: step.1), step.2)

/-- Looking a status up through a key-preserving per-record map. -/
theorem statusOf_map (recs : List GraphRecord) (f : GraphRecord → GraphRecord)
    (hf : ∀ r, (f r).key = r.key) (k : String) :
    statusOf (recs.map f) k
      = (recs.find? (fun r => r.key == k)).map (fun r => (f r).status) := by
  unfold statusOf
  rw [List.find?_map]
  have hpred : ((fun r : GraphRecord => r.key == k) ∘ f)
      = fun r : GraphRecord => r.key == k := by
    funext r
    simp [Function.comp, hf]
  rw [hpred, Option.map_map]
  rfl

/-- A non-Pending status persists through a wave submission (only
ready, hence Pending, records are touched). -/
theorem statusOf_deployWave (results : String → Bool) (recs : List GraphRecord)
    (k : String) (s : DeploymentStatus) (hs : statusOf recs k = some s)
    (hnp : s ≠ DeploymentStatus.pending) :
    statusOf (deployWave results recs) k = some s := by
  cases hfind : recs.find? (fun r => r.key == k) with
  | none => rw [statusOf, hfind] at hs; simp at hs
  | some r0 =>
    have hstat : r0.status = s := by
      rw [statusOf, hfind] at hs
      simpa using hs
    have hnr : isReady recs r0 = false := by
      unfold isReady
      rw [hstat]
      have hsb : (s == DeploymentStatus.pending) = false := by
        simpa [beq_eq_false_iff_ne] using hnp
      simp [hsb]
    unfold deployWave
    rw [statusOf_map _ _ (fun r => by split <;> rfl) k, hfind]
    simp [hnr, hstat]

/-- A non-Pending status persists through one skip-propagation pass
(only Pending records are skipped). -/
theorem statusOf_skipStep (recs : List GraphRecord)
    (k : String) (s : DeploymentStatus) (hs : statusOf recs k = some s)
    (hnp : s ≠ DeploymentStatus.pending) :
    statusOf (skipStep recs) k = some s := by
  cases hfind : recs.find? (fun r => r.key == k) with
  | none => rw [statusOf, hfind] at hs; simp at hs
  | some r0 =>
    have hstat : r0.status = s := by
      rw [statusOf, hfind] at hs
      simpa using hs
    have hsb : (r0.status == DeploymentStatus.pending) = false := by
      rw [hstat]
      simpa [beq_eq_false_iff_ne] using hnp
    unfold skipStep
    rw [statusOf_map _ _ (fun r => by split <;> rfl) k, hfind]
    simp [hsb, hstat]
    rw [if_neg (fun hcon => hnp hcon.1)]
    exact hstat

/-- A non-Pending status persists through iterated skip passes. -/
theorem statusOf_iterateSkips (n : Nat) (recs : List GraphRecord)
    (k : String) (s : DeploymentStatus) (hs : statusOf recs k = some s)
    (hnp : s ≠ DeploymentStatus.pending) :
    statusOf (iterateSkips n recs) k = some s := by
  induction n generalizing recs with
  | zero => exact hs
  | succ m ih => exact ih (skipStep recs) (statusOf_skipStep recs k s hs hnp)

/-- A non-Pending status persists through the skip-propagation
closure. -/
theorem statusOf_propagateSkips (recs : List GraphRecord)
    (k : String) (s : DeploymentStatus) (hs : statusOf recs k = some s)
    (hnp : s ≠ DeploymentStatus.pending) :
    statusOf (propagateSkips recs) k = some s :=
  statusOf_iterateSkips recs.length recs k s hs hnp

/-- A non-Pending status persists to the end of the deployment loop. -/
theorem statusOf_runDeployment (results : String → Bool) (fuel : Nat)
    (recs : List GraphRecord) (k : String) (s : DeploymentStatus)
    (hs : statusOf recs k = some s) (hnp : s ≠ DeploymentStatus.pending) :
    statusOf (runDeployment results fuel recs).2 k = some s := by
  induction fuel generalizing recs with
  | zero => simpa [runDeployment] using hs
  | succ n ih =>
    rw [runDeployment]
    by_cases hre : (recs.filter (isReady recs)).isEmpty = true
    · simpa [hre] using hs
    · simp only [hre, Bool.false_eq_true, if_false]
      exact ih _ (statusOf_propagateSkips _ k s
        (statusOf_deployWave results recs k s hs hnp) hnp)

/-- Key-preserving per-record maps keep the key list. -/
theorem keys_map_of_preserving (recs : List GraphRecord)
    (f : GraphRecord → GraphRecord) (hf : ∀ r, (f r).key = r.key) :
    (recs.map f).map (fun r => r.key) = recs.map (fun r => r.key) := by
  rw [List.map_map]
  exact List.map_congr_left (fun r _ => hf r)

/-- A wave submission keeps the key list. -/
theorem keys_deployWave (results : String → Bool) (recs : List GraphRecord) :
    (deployWave results recs).map (fun r => r.key) = recs.map (fun r => r.key) :=
  keys_map_of_preserving recs _ (fun r => by split <;> rfl)

/-- A skip pass keeps the key list. -/
theorem keys_skipStep (recs : List GraphRecord) :
    (skipStep recs).map (fun r => r.key) = recs.map (fun r => r.key) :=
  keys_map_of_preserving recs _ (fun r => by split <;> rfl)

/-- Iterated skip passes keep the key list. -/
theorem keys_iterateSkips (n : Nat) (recs : List GraphRecord) :
    (iterateSkips n recs).map (fun r => r.key) = recs.map (fun r => r.key) := by
  induction n generalizing recs with
  | zero => rfl
  | succ m ih => rw [iterateSkips, ih, keys_skipStep]

/-- The skip-propagation closure keeps the key list. -/
theorem keys_propagateSkips (recs : List GraphRecord) :
    (propagateSkips recs).map (fun r => r.key) = recs.map (fun r => r.key) :=
  keys_iterateSkips recs.length recs

/-- The deployment loop keeps the key list. -/
theorem keys_runDeployment (results : String → Bool) (fuel : Nat)
    (recs : List GraphRecord) :
    (runDeployment results fuel recs).2.map (fun r => r.key)
      = recs.map (fun r => r.key) := by
  induction fuel generalizing recs with
  | zero => rfl
  | succ n ih =>
    rw [runDeployment]
    by_cases hre : (recs.filter (isReady recs)).isEmpty = true
    · simp [hre]
    · simp only [hre, Bool.false_eq_true, if_false]
      rw [ih, keys_propagateSkips, keys_deployWave]

/-- With duplicate-free keys, finding by a member's key returns that
member. -/
theorem find?_of_mem_nodup (recs : List GraphRecord)
    (hnd : (recs.map (fun r => r.key)).Nodup) (r : GraphRecord) (hr : r ∈ recs) :
    recs.find? (fun x => x.key == r.key) = some r := by
  induction recs with
  | nil => simp at hr
  | cons a l ih =>
    rw [List.map_cons, List.nodup_cons] at hnd
    rcases List.mem_cons.mp hr with rfl | hr2
    · exact List.find?_cons_of_pos _ (by simp)
    · have hne : (a.key == r.key) = false := by
        rw [beq_eq_false_iff_ne]
        intro h
        exact hnd.1 (h ▸ List.mem_map_of_mem _ hr2)
      rw [List.find?_cons_of_neg _ (by simp [hne])]
      exact ih hnd.2 hr2

/-- Every submitted key of every wave belongs to a record that was
ready in that wave's pre-state; in particular each of its matching
dependencies was already Deployed there. -/
theorem runDeployment_wave_ready (results : String → Bool) :
    ∀ (fuel : Nat) (recs : List GraphRecord) (pre : List GraphRecord) (wave : List String),
      (pre, wave) ∈ (runDeployment results fuel recs).1 →
      ∀ k ∈ wave, ∃ r ∈ pre, r.key = k ∧ isReady pre r = true ∧
        ∀ s, GraphDep.matching s ∈ r.deps →
          statusOf pre s = some DeploymentStatus.deployed := by
  intro fuel
  induction fuel with
  | zero => intro recs pre wave h; simp [runDeployment] at h
  | succ n ih =>
    intro recs pre wave h k hk
    rw [runDeployment] at h
    by_cases hre : (recs.filter (isReady recs)).isEmpty = true
    · simp [hre] at h
    · simp only [hre, Bool.false_eq_true, if_false] at h
      rcases List.mem_cons.mp h with heq | htail
      · obtain ⟨hp, hw⟩ := Prod.mk.injEq .. |>.mp heq
        subst hp
        subst hw
        rw [List.mem_map] at hk
        obtain ⟨r0, hr0, rfl⟩ := hk
        rw [List.mem_filter] at hr0
        refine ⟨r0, hr0.1, rfl, hr0.2, ?_⟩
        have hall : r0.deps.all (depSatisfied pre) = true := by
          have h2 := hr0.2
          unfold isReady at h2
          rw [Bool.and_eq_true] at h2
          exact h2.2
        intro s hs
        have hd := List.all_eq_true.mp hall _ hs
        simpa [depSatisfied] using hd
      · exact ih _ pre wave htail k hk

/-- Every key ever submitted in some wave ends the run Deployed or
Failed (it can never end Skipped). -/
theorem runDeployment_submitted_terminal (results : String → Bool) :
    ∀ (fuel : Nat) (recs : List GraphRecord),
      ((recs.map (fun r => r.key)).Nodup) →
      ∀ (pre : List GraphRecord) (wave : List String),
        (pre, wave) ∈ (runDeployment results fuel recs).1 →
        ∀ k ∈ wave,
          statusOf (runDeployment results fuel recs).2 k
              = some DeploymentStatus.deployed ∨
          statusOf (runDeployment results fuel recs).2 k
              = some DeploymentStatus.failed := by
  intro fuel
  induction fuel with
  | zero => intro recs _ pre wave h; simp [runDeployment] at h
  | succ n ih =>
    intro recs hnd pre wave h k hk
    rw [runDeployment] at h ⊢
    by_cases hre : (recs.filter (isReady recs)).isEmpty = true
    · simp [hre] at h
    · simp only [hre, Bool.false_eq_true, if_false] at h ⊢
      have hndnext :
          (((propagateSkips (deployWave results recs)).map (fun r => r.key)).Nodup) := by
        rw [keys_propagateSkips, keys_deployWave]
        exact hnd
      rcases List.mem_cons.mp h with heq | htail
      · obtain ⟨hp, hw⟩ := Prod.mk.injEq .. |>.mp heq
        subst hp
        subst hw
        rw [List.mem_map] at hk
        obtain ⟨r0, hr0, rfl⟩ := hk
        rw [List.mem_filter] at hr0
        have h1 : statusOf (deployWave results pre) r0.key
            = some (if results r0.key then DeploymentStatus.deployed
                    else DeploymentStatus.failed) := by
          unfold deployWave
          rw [statusOf_map _ _ (fun r => by split <;> rfl) _,
            find?_of_mem_nodup pre hnd r0 hr0.1]
          simp [hr0.2]
        have hnp : (if results r0.key then DeploymentStatus.deployed
            else DeploymentStatus.failed) ≠ DeploymentStatus.pending := by
          split <;> simp
        have h2 := statusOf_propagateSkips _ r0.key _ h1 hnp
        have h3 := statusOf_runDeployment results n _ r0.key _ h2 hnp
        cases hres : results r0.key with
        | true => left; rw [hres] at h3; simpa using h3
        | false => right; rw [hres] at h3; simpa using h3
      · exact ih _ hndnext pre wave htail k hk

/-- C4: readiness of a record holds exactly when it is Pending and
every entry of its dependency set is satisfied — a matching dependency
is satisfied exactly when its target's status is Deployed, a lookup
dependency exactly when it was successfully pre-resolved; every record
submitted in some wave was ready in that wave's pre-state, so each of
its matching dependencies was already Deployed when it was submitted
(R is never submitted before S is Deployed); and a record that ends the
run Skipped was never submitted in any wave. -/
theorem deployment_order_and_skip (results : String → Bool) (fuel : Nat)
    (recs0 : List GraphRecord) (hnd : (recs0.map (fun r => r.key)).Nodup) :
    (∀ (recs : List GraphRecord) (r : GraphRecord), isReady recs r = true ↔
      (r.status = DeploymentStatus.pending ∧
        ∀ d ∈ r.deps, depSatisfied recs d = true)) ∧
    (∀ (recs : List GraphRecord) (k : String),
      depSatisfied recs (GraphDep.matching k) = true ↔
        statusOf recs k = some DeploymentStatus.deployed) ∧
    (∀ (recs : List GraphRecord) (b : Bool),
      depSatisfied recs (GraphDep.lookup b) = b) ∧
    (∀ (pre : List GraphRecord) (wave : List String),
      (pre, wave) ∈ (runDeployment results fuel recs0).1 →
      ∀ k ∈ wave, ∃ r ∈ pre, r.key = k ∧ isReady pre r = true ∧
        ∀ s, GraphDep.matching s ∈ r.deps →
          statusOf pre s = some DeploymentStatus.deployed) ∧
    (∀ r ∈ (runDeployment results fuel recs0).2,
      r.status = DeploymentStatus.skipped →
      ∀ (pre : List GraphRecord) (wave : List String),
        (pre, wave) ∈ (runDeployment results fuel recs0).1 → r.key ∉ wave) := by
  refine ⟨?_, ?_, ?_, ?_, ?_⟩
  · intro recs r
    simp [isReady, List.all_eq_true]
  · intro recs k
    simp [depSatisfied]
  · intro recs b
    rfl
  · exact runDeployment_wave_ready results fuel recs0
  · intro r hr hsk pre wave htr hkin
    have hterm := runDeployment_submitted_terminal results fuel recs0 hnd
      pre wave htr r.key hkin
    have hndf : (((runDeployment results fuel recs0).2.map (fun x => x.key)).Nodup) := by
      rw [keys_runDeployment]
      exact hnd
    have hfin : statusOf (runDeployment results fuel recs0).2 r.key
        = some DeploymentStatus.skipped := by
      rw [statusOf, find?_of_mem_nodup _ hndf r hr]
      simp [hsk]
    rcases hterm with h | h <;> rw [hfin] at h <;> simp at h

/-- The four-record dependency graph of the order witness: `a` and `b`
independent, `c` depending on `a`, `d` depending on `b`. -/
def wRecs0 : List GraphRecord :=
  [{ key := "a", deps := [], status := DeploymentStatus.pending },
   { key := "b", deps := [], status := DeploymentStatus.pending },
   { key := "c", deps := [GraphDep.matching "a"], status := DeploymentStatus.pending },
   { key := "d", deps := [GraphDep.matching "b"], status := DeploymentStatus.pending }]

/-- Remote outcomes of the order witness: every record deploys except
`b`, which fails. -/
def wResults (k : String) : Bool := !(k == "b")

/-- Witness for C4: the order theorem evaluated on the four-record
graph — the run submits waves `[a, b]` then `[c]`, `d` ends Skipped,
every submitted record was ready with Deployed matching dependencies in
its wave's pre-state, and the Skipped record `d` was never
submitted. -/
theorem deployment_order_and_skip_witness :
    ((wRecs0.map (fun r => r.key)).Nodup) ∧
    ((runDeployment wResults 4 wRecs0).1.map Prod.snd = [["a", "b"], ["c"]]) ∧
    (statusOf (runDeployment wResults 4 wRecs0).2 "d" = some DeploymentStatus.skipped) ∧
    (∀ pre wave, (pre, wave) ∈ (runDeployment wResults 4 wRecs0).1 →
      ∀ k ∈ wave, ∃ r ∈ pre, r.key = k ∧ isReady pre r = true ∧
        ∀ s, GraphDep.matching s ∈ r.deps →
          statusOf pre s = some DeploymentStatus.deployed) ∧
    (∀ r ∈ (runDeployment wResults 4 wRecs0).2,
      r.status = DeploymentStatus.skipped →
      ∀ pre wave, (pre, wave) ∈ (runDeployment wResults 4 wRecs0).1 → r.key ∉ wave) :=
  ⟨by decide, by decide, by decide,
   (deployment_order_and_skip wResults 4 wRecs0 (by decide)).2.2.2.1,
   (deployment_order_and_skip wResults 4 wRecs0 (by decide)).2.2.2.2⟩

end Vlocode
